import Mathlib

/-!
Verification development for the StacksTasker marketplace.

The first part embeds the task lifecycle engine (task, bid, agent and
review entities backed by a Postgres store) as pure Lean functions over an
explicit engine state.  Monetary amounts are held in minor units
(microSTX, one STX being 1000000 microSTX) as natural numbers, mirroring
the integer semantics of the TEXT and NUMERIC columns of the store.  The
payment protocol layer (codec, verifier, fetch wrapper and middleware) is
modelled from the specification because only its test files ship with the
repository.
-/

namespace StacksTasker

/-! ## Decimal rendering helpers -/

/-- Character for the decimal digit d (d below 10). -/
def digitChar (d : Nat) : Char := Char.ofNat (48 + d)

/-- Base ten digit list of a natural number, least significant first, with
explicit fuel so that the definition reduces by computation. -/
def natDigitsAux : Nat → Nat → List Nat
  | 0, _ => []
  | _, 0 => []
  | fuel + 1, n => n % 10 :: natDigitsAux fuel (n / 10)

/-- Base ten digit list of a natural number, least significant first. -/
def natDecDigits (n : Nat) : List Nat := natDigitsAux n n

/-- Decimal rendering of a natural number, most significant digit first. -/
def natToDec (n : Nat) : String :=
  if n = 0 then String.mk [digitChar 0]
  else String.mk ((natDecDigits n).reverse.map digitChar)

/-- Render a microSTX amount as an STX decimal string with exactly six
fraction digits, the display format used by the engine when it records
fees and earnings. -/
def microToFixed6 (n : Nat) : String :=
  let fracStr := natToDec (n % 1000000)
  natToDec (n / 1000000) ++ "." ++
    String.mk (List.replicate (6 - fracStr.length) (digitChar 0)) ++ fracStr

/-! ## Task lifecycle engine data model (from src/unnamed/part_004) -/

/-- Task status enumeration of the engine. -/
inductive TaskStatus where
  | opened
  | bidding
  | assigned
  | inProgress
  | submitted
  | completed
  | cancelled
  | closed
deriving DecidableEq

/-- Wire name of a task status, as stored in the status column. -/
def statusName : TaskStatus → String
  | .opened => "open"
  | .bidding => "bidding"
  | .assigned => "assigned"
  | .inProgress => "in-progress"
  | .submitted => "submitted"
  | .completed => "completed"
  | .cancelled => "cancelled"
  | .closed => "closed"

/-- Row of the tasks table.  The bounty mirror column bounty_micro_stx is
held as a natural number of microSTX; timestamps are abstract ticks. -/
structure Task where
  id : String
  title : String
  description : String
  category : String
  bounty : String
  bountyMicroStx : Nat
  status : TaskStatus
  posterAddress : String
  assignedAgent : Option String
  result : Option String
  paymentTxId : Option String
  platformFee : Option String
  platformWallet : Option String
  rejectionReason : Option String
  createdAt : Nat
  updatedAt : Nat
  completedAt : Option Nat
deriving DecidableEq

/-- Row of the agents table.  The total_earned NUMERIC text accumulator is
held as its exact microSTX value and avg_rating as tenths of a star. -/
structure Agent where
  id : String
  name : String
  walletAddress : String
  bio : String
  avatar : String
  capabilities : List String
  tasksCompleted : Nat
  totalEarnedMicro : Nat
  avgRatingTenths : Nat
  totalReviews : Nat
  registeredAt : Nat
  lastActiveAt : Nat
deriving DecidableEq

/-- Row of the bids table. -/
structure Bid where
  id : String
  taskId : String
  agentId : String
  amount : String
  message : String
  estimatedTime : String
  createdAt : Nat
deriving DecidableEq

/-- Durable store contents seen by the engine. -/
structure EngineState where
  tasks : List Task
  agents : List Agent
  bids : List Bid
deriving DecidableEq

/-- Result shape of an engine operation: the updated entity or a typed
error object. -/
abbrev EngineResult (α : Type) := Except String α

/-- Decidable equality of engine results, used to evaluate the concrete
scenarios. -/
instance {α : Type} [DecidableEq α] : DecidableEq (EngineResult α) := fun x y =>
  match x, y with
  | .ok a, .ok b =>
    if h : a = b then isTrue (by rw [h]) else isFalse (by simp [h])
  | .error e1, .error e2 =>
    if h : e1 = e2 then isTrue (by rw [h]) else isFalse (by simp [h])
  | .ok _, .error _ => isFalse (by simp)
  | .error _, .ok _ => isFalse (by simp)

/-- Platform wallet constant of the engine. -/
def PLATFORM_WALLET : String := "SPRG5SJWZ4TE23RJY2Z9NJW9MVN23NMSEGVHH714"

/-- SELECT of a task row by primary key. -/
def getTask (s : EngineState) (taskId : String) : Option Task :=
  s.tasks.find? (fun t => t.id == taskId)

/-- SELECT of an agent row by primary key. -/
def getAgent (s : EngineState) (agentId : String) : Option Agent :=
  s.agents.find? (fun a => a.id == agentId)

/-- UPDATE of the task row with the given id. -/
def updateTask (s : EngineState) (taskId : String) (f : Task → Task) : EngineState :=
  { s with tasks := s.tasks.map (fun t => if t.id == taskId then f t else t) }

/-- UPDATE of the agent row with the given id. -/
def updateAgent (s : EngineState) (agentId : String) (f : Agent → Agent) : EngineState :=
  { s with agents := s.agents.map (fun a => if a.id == agentId then f a else a) }

/-- Bids stored for one task. -/
def bidsFor (s : EngineState) (taskId : String) : List Bid :=
  s.bids.filter (fun b => b.taskId == taskId)

/-- COUNT of bids on a task. -/
def getBidCount (s : EngineState) (taskId : String) : Nat :=
  (bidsFor s taskId).length

/-- Read phase of acceptTask: fetch the task and the agent and run the
guard checks, returning the typed error when one fails. -/
def acceptTaskCheck (s : EngineState) (taskId agentId : String) : Option String :=
  match getTask s taskId with
  | none => some "Task not found"
  | some t =>
    if t.status = .opened ∨ t.status = .bidding then
      match getAgent s agentId with
      | none => some "Agent not registered"
      | some _ => none
    else some ("Task is " ++ statusName t.status ++ ", not open")

/-- Write phase of acceptTask: the two UPDATE statements, conditioned on
the row id only (the stored status is not re-checked at write time). -/
def acceptTaskWrite (s : EngineState) (taskId agentId : String) (now : Nat) : EngineState :=
  let s1 := updateTask s taskId (fun t =>
    { t with status := .assigned, assignedAgent := some agentId, updatedAt := now })
  updateAgent s1 agentId (fun a => { a with lastActiveAt := now })

/-- Direct acceptance of a task by a registered agent; sequential
composition of the read phase and the write phase. -/
def acceptTask (s : EngineState) (taskId agentId : String) (now : Nat) :
    EngineState × EngineResult Task :=
  match acceptTaskCheck s taskId agentId with
  | some e => (s, .error e)
  | none =>
    let s1 := acceptTaskWrite s taskId agentId now
    (s1, match getTask s1 taskId with
         | some t => .ok t
         | none => .error "Task not found")

/-- Acceptance of a specific bid by the poster; transitions the task to
assigned and records the bidding agent, with the same unconditioned
UPDATE as acceptTask. -/
def acceptBid (s : EngineState) (taskId bidId posterAddress : String) (now : Nat) :
    EngineState × EngineResult Task :=
  match getTask s taskId with
  | none => (s, .error "Task not found")
  | some t =>
    if t.status = .opened ∨ t.status = .bidding then
      if t.posterAddress = posterAddress then
        match s.bids.find? (fun b => b.id == bidId && b.taskId == taskId) with
        | none => (s, .error "Bid not found")
        | some b =>
          match getAgent s b.agentId with
          | none => (s, .error "Agent not found")
          | some _ =>
            let s1 := acceptTaskWrite s taskId b.agentId now
            (s1, match getTask s1 taskId with
                 | some u => .ok u
                 | none => .error "Task not found")
      else (s, .error "Only the poster can accept bids")
    else (s, .error ("Task is " ++ statusName t.status ++ ", cannot accept bids"))

/-- Request body of placeBid. -/
structure PlaceBidRequest where
  agentId : String
  amount : String
  message : String
  estimatedTime : String
deriving DecidableEq

/-- Placement of a bid: guard checks, duplicate check against the stored
bids of the same task and agent, insertion, and the side effect that a
first bid promotes an open task to bidding. -/
def placeBid (s : EngineState) (taskId : String) (req : PlaceBidRequest)
    (newId : String) (now : Nat) : EngineState × EngineResult Bid :=
  match getTask s taskId with
  | none => (s, .error "Task not found")
  | some t =>
    if t.status = .opened ∨ t.status = .bidding then
      match getAgent s req.agentId with
      | none => (s, .error "Agent not registered")
      | some _ =>
        let existing := s.bids.filter (fun b => b.taskId == taskId && b.agentId == req.agentId)
        if 0 < existing.length then
          (s, .error "Agent already placed a bid on this task")
        else
          let b : Bid := { id := newId, taskId := taskId, agentId := req.agentId,
                           amount := req.amount, message := req.message,
                           estimatedTime := req.estimatedTime, createdAt := now }
          let s1 : EngineState := { s with bids := s.bids ++ [b] }
          let s2 := if t.status = .opened then
              updateTask s1 taskId (fun u => { u with status := .bidding, updatedAt := now })
            else s1
          let s3 := updateAgent s2 req.agentId (fun a => { a with lastActiveAt := now })
          (s3, .ok b)
    else (s, .error ("Task is " ++ statusName t.status ++ ", not accepting bids"))

/-- Column changes of the rejection UPDATE: status back to assigned, the
rejection reason stored, the result cleared, the update timestamp
advanced; every other column is untouched. -/
def rejectedTask (reason : String) (now : Nat) (u : Task) : Task :=
  { u with status := .assigned, rejectionReason := some reason,
           result := none, updatedAt := now }

/-- Rejection of a submitted result by the poster. -/
def rejectResult (s : EngineState) (taskId posterAddress reason : String) (now : Nat) :
    EngineState × EngineResult Task :=
  match getTask s taskId with
  | none => (s, .error "Task not found")
  | some t =>
    if t.status = .submitted then
      if t.posterAddress = posterAddress then
        (updateTask s taskId (rejectedTask reason now), .ok (rejectedTask reason now t))
      else (s, .error "Only the poster can reject submissions")
    else (s, .error ("Task is " ++ statusName t.status ++ ", not submitted"))

/-- Column changes of the completion UPDATE of approveTask: status
completed, payment transaction id, the platform fee rendered with six
fraction digits, the platform wallet, and the completion and update
timestamps. -/
def completedTask (paymentTxId : String) (now feeMicro : Nat) (u : Task) : Task :=
  { u with status := .completed, paymentTxId := some paymentTxId,
           platformFee := some (microToFixed6 feeMicro),
           platformWallet := some PLATFORM_WALLET,
           completedAt := some now, updatedAt := now }

/-- Column changes of the agent UPDATE of approveTask: the completed
counter advances by one and the payout is added to the earnings
accumulator. -/
def payoutAgent (payoutMicro now : Nat) (a : Agent) : Agent :=
  { a with tasksCompleted := a.tasksCompleted + 1,
           totalEarnedMicro := a.totalEarnedMicro + payoutMicro,
           lastActiveAt := now }

/-- Outcome of approveTask: the updated row, a returned error object, or a
thrown error after the enclosing transaction rolled back. -/
inductive ApproveOutcome where
  | ok (t : Task)
  | failed (msg : String)
  | txAborted
deriving DecidableEq

/-- Approval of a submitted task, the payment trigger.  The fee is one
percent of the bounty by integer floor division on microSTX and the
payout is the remainder.  The task completion write and the agent counter
write run inside one transaction: the flag agentUpdateOk injects a
failure of the agent UPDATE, in which case the transaction rolls back and
the store is left untouched. -/
def approveTask (s : EngineState) (taskId : String) (paymentTxId : String)
    (now : Nat) (agentUpdateOk : Bool) : EngineState × ApproveOutcome :=
  match getTask s taskId with
  | none => (s, .failed "Task not found")
  | some t =>
    if t.status = .submitted then
      let feeMicro := t.bountyMicroStx / 100
      let payoutMicro := t.bountyMicroStx - feeMicro
      let s1 := updateTask s taskId (completedTask paymentTxId now feeMicro)
      match t.assignedAgent with
      | some aid =>
        if agentUpdateOk then
          (updateAgent s1 aid (payoutAgent payoutMicro now),
           .ok (completedTask paymentTxId now feeMicro t))
        else (s, .txAborted)
      | none => (s1, .ok (completedTask paymentTxId now feeMicro t))
    else (s, .failed ("Task is " ++ statusName t.status ++ ", not submitted"))

/-! ## Store schema (from src/unnamed/part_006) -/

/-- Declarative summary of one CREATE TABLE statement: column names, the
primary key and the extra UNIQUE constraints. -/
structure TableDef where
  name : String
  columns : List String
  primaryKey : List String
  uniques : List (List String)
deriving DecidableEq

/-- Schema of the bids table.  Its only key is the primary key; the DDL
declares no UNIQUE constraint over task_id and agent_id. -/
def bidsTable : TableDef :=
  { name := "bids",
    columns := ["id", "task_id", "agent_id", "amount", "message",
                "estimated_time", "created_at"],
    primaryKey := ["id"],
    uniques := [] }

/-- Schema of the reviews table, including its UNIQUE constraint over
task_id and agent_id. -/
def reviewsTable : TableDef :=
  { name := "reviews",
    columns := ["id", "task_id", "agent_id", "reviewer_address", "rating",
                "comment", "created_at"],
    primaryKey := ["id"],
    uniques := [["task_id", "agent_id"]] }

/-! ## Interleaved execution of two acceptTask calls (for the race claim) -/

/-- Execution of two acceptTask calls on the same task in the interleaving
where both read phases complete before either write phase commits.  Both
calls that pass their checks perform their UPDATE and return the row read
back after their own write. -/
def racedAccept (s : EngineState) (taskId a1 a2 : String) (t1 t2 : Nat) :
    EngineState × EngineResult Task × EngineResult Task :=
  match acceptTaskCheck s taskId a1, acceptTaskCheck s taskId a2 with
  | none, none =>
    let s1 := acceptTaskWrite s taskId a1 t1
    let s2 := acceptTaskWrite s1 taskId a2 t2
    (s2,
     (match getTask s1 taskId with
      | some t => .ok t
      | none => .error "Task not found"),
     (match getTask s2 taskId with
      | some t => .ok t
      | none => .error "Task not found"))
  | some e, none =>
    let s2 := acceptTaskWrite s taskId a2 t2
    (s2, .error e,
     (match getTask s2 taskId with
      | some t => .ok t
      | none => .error "Task not found"))
  | none, some e =>
    let s1 := acceptTaskWrite s taskId a1 t1
    (s1,
     (match getTask s1 taskId with
      | some t => .ok t
      | none => .error "Task not found"),
     .error e)
  | some e1, some e2 => (s, .error e1, .error e2)

/-! ## Decimal parsing (model of BigInt over decimal strings) -/

/-- Test for a decimal digit character. -/
def isDigitCh (c : Char) : Bool := decide (48 ≤ c.toNat ∧ c.toNat ≤ 57)

/-- Test for a nonempty all-digit string. -/
def isDigitString (s : String) : Bool :=
  !s.data.isEmpty && s.data.all isDigitCh

/-- Value of a big-endian digit character list. -/
def decDigitsVal (l : List Char) : Nat :=
  l.foldl (fun acc c => acc * 10 + (c.toNat - 48)) 0

/-- Arbitrary precision parse of a decimal string, the model of BigInt
applied to a wire amount; fails on empty or non-digit input. -/
def parseDec (s : String) : Option Nat :=
  if isDigitString s then some (decDigitsVal s.data) else none

/-! ## Payment protocol data model

Modelled from the spec: the package source of the payment protocol is not
in the repository (only its test files are), so PaymentRequirement and
PaymentPayload are taken from the data model section of the spec. -/

/-- Modelled from the spec: what a protected resource demands (the
implementation type StacksPaymentRequirement is not in the repository).
The amount is a decimal string with minor-unit integer semantics. -/
structure PaymentRequirement where
  scheme : String
  network : String
  chainId : Nat
  recipient : String
  amount : String
  asset : String
  description : Option String
  resource : Option String
deriving DecidableEq

/-- Modelled from the spec: what a payer presents (the implementation type
StacksPaymentPayload is not in the repository). -/
structure PaymentPayload where
  scheme : String
  network : String
  chainId : Nat
  recipient : String
  amount : String
  asset : String
  nonce : Nat
  signature : String
  publicKey : String
  expiresAt : Option Nat
deriving DecidableEq

/-! ## JSON object layer of the codec

Modelled from the spec: the codec source (utils of the stacks package) is
not in the repository.  The wire format is base64 of a JSON object; the
model renders an object as a field list and parses it back, with string
and natural number field values. -/

/-- JSON field value of the codec model: a string or a natural number. -/
inductive JField where
  | fstr (s : String)
  | fnum (n : Nat)
deriving DecidableEq

/-- Double quote character. -/
def chQuote : Char := Char.ofNat 34
/-- Comma character. -/
def chComma : Char := Char.ofNat 44
/-- Colon character. -/
def chColon : Char := Char.ofNat 58
/-- Equals sign, the base64 padding character. -/
def chEq : Char := Char.ofNat 61
/-- Opening curly brace character. -/
def chLBrace : Char := Char.ofNat 123
/-- Closing curly brace character. -/
def chRBrace : Char := Char.ofNat 125
/-- Backslash character. -/
def chBackslash : Char := Char.ofNat 92

/-- Character safe to place unescaped inside a JSON string literal of the
wire format: printable ASCII other than the quote and the backslash. -/
def jsonSafeChar (c : Char) : Bool :=
  decide (32 ≤ c.toNat ∧ c.toNat ≤ 126) && !(c = chQuote) && !(c = chBackslash)

/-- String whose characters are all JSON safe. -/
def jsonSafeStr (s : String) : Bool := s.data.all jsonSafeChar

/-- Rendering of a JSON field value. -/
def renderJField : JField → List Char
  | .fstr s => chQuote :: s.data ++ [chQuote]
  | .fnum n => (natToDec n).data

/-- Rendering of one key and value pair of a JSON object. -/
def renderPair (kv : String × JField) : List Char :=
  chQuote :: kv.1.data ++ chQuote :: chColon :: renderJField kv.2

/-- Rendering of the comma separated field list of a JSON object. -/
def renderPairs : List (String × JField) → List Char
  | [] => []
  | [kv] => renderPair kv
  | kv :: rest => renderPair kv ++ chComma :: renderPairs rest

/-- Rendering of a JSON object from its field list. -/
def renderObj (fs : List (String × JField)) : List Char :=
  chLBrace :: renderPairs fs ++ [chRBrace]

/-- Parse of a JSON string literal body up to the closing quote; returns
the body and the remaining input. -/
def parseStrChars : List Char → Option (List Char × List Char)
  | [] => none
  | c :: rest =>
    if c = chQuote then some ([], rest)
    else match parseStrChars rest with
      | some (s, rem) => some (c :: s, rem)
      | none => none

/-- Parse of a JSON number literal; returns its value and the remaining
input. -/
def parseNum (cs : List Char) : Option (Nat × List Char) :=
  let ds := cs.takeWhile isDigitCh
  if ds.isEmpty then none
  else some (decDigitsVal ds, cs.dropWhile isDigitCh)

/-- Parse of a JSON field value (string or number). -/
def parseJField (cs : List Char) : Option (JField × List Char) :=
  match cs with
  | [] => none
  | c :: rest =>
    if c = chQuote then
      match parseStrChars rest with
      | some (s, rem) => some (.fstr (String.mk s), rem)
      | none => none
    else if isDigitCh c then
      match parseNum (c :: rest) with
      | some (n, rem) => some (.fnum n, rem)
      | none => none
    else none

/-- Parse of the comma separated field list of a JSON object, with fuel
bounding the number of fields. -/
def parsePairsAux : Nat → List Char → Option (List (String × JField) × List Char)
  | 0, _ => none
  | fuel + 1, cs =>
    match cs with
    | [] => none
    | c :: rest =>
      if c = chQuote then
        match parseStrChars rest with
        | some (k, rem1) =>
          match rem1 with
          | [] => none
          | c2 :: rem2 =>
            if c2 = chColon then
              match parseJField rem2 with
              | some (v, rem3) =>
                match rem3 with
                | [] => some ([(String.mk k, v)], [])
                | c3 :: rem4 =>
                  if c3 = chComma then
                    match parsePairsAux fuel rem4 with
                    | some (fs, rem5) => some ((String.mk k, v) :: fs, rem5)
                    | none => none
                  else some ([(String.mk k, v)], c3 :: rem4)
              | none => none
            else none
        | none => none
      else none

/-- Parse of a complete JSON object into its field list; the whole input
must be consumed. -/
def parseObjChars (cs : List Char) : Option (List (String × JField)) :=
  match cs with
  | [] => none
  | c :: rest =>
    if c = chLBrace then
      match rest with
      | [] => none
      | d :: rest2 =>
        if d = chRBrace ∧ rest2 = [] then some []
        else match parsePairsAux rest.length rest with
          | some (fs, rem) => if rem = [chRBrace] then some fs else none
          | none => none
    else none

/-! ## Base64 layer of the codec -/

/-- Character of the base64 alphabet at a sextet value. -/
def b64char (i : Nat) : Char :=
  if i < 26 then Char.ofNat (65 + i)
  else if i < 52 then Char.ofNat (97 + (i - 26))
  else if i < 62 then Char.ofNat (48 + (i - 52))
  else if i = 62 then Char.ofNat 43
  else Char.ofNat 47

/-- Sextet value of a base64 alphabet character. -/
def b64decChar (c : Char) : Option Nat :=
  let n := c.toNat
  if 65 ≤ n ∧ n ≤ 90 then some (n - 65)
  else if 97 ≤ n ∧ n ≤ 122 then some (n - 97 + 26)
  else if 48 ≤ n ∧ n ≤ 57 then some (n - 48 + 52)
  else if n = 43 then some 62
  else if n = 47 then some 63
  else none

/-- Base64 encoding of a byte list, three bytes to four characters with
padding on the final group. -/
def b64encodeBytes : List Nat → List Char
  | [] => []
  | [a] => [b64char (a / 4), b64char (a % 4 * 16), chEq, chEq]
  | [a, b] => [b64char (a / 4), b64char (a % 4 * 16 + b / 16), b64char (b % 16 * 4), chEq]
  | a :: b :: c :: rest =>
    b64char (a / 4) :: b64char (a % 4 * 16 + b / 16) ::
    b64char (b % 16 * 4 + c / 64) :: b64char (c % 64) :: b64encodeBytes rest

/-- Base64 decoding of a character list back to bytes; fails on characters
outside the alphabet or a malformed group structure. -/
def b64decodeBytes : List Char → Option (List Nat)
  | [] => some []
  | c1 :: c2 :: c3 :: c4 :: rest =>
    match b64decChar c1, b64decChar c2 with
    | some s1, some s2 =>
      if c3 = chEq then
        if c4 = chEq ∧ rest = [] then some [s1 * 4 + s2 / 16] else none
      else
        match b64decChar c3 with
        | some s3 =>
          if c4 = chEq then
            if rest = [] then some [s1 * 4 + s2 / 16, s2 % 16 * 16 + s3 / 4] else none
          else
            match b64decChar c4, b64decodeBytes rest with
            | some s4, some bs =>
              some ((s1 * 4 + s2 / 16) :: (s2 % 16 * 16 + s3 / 4) :: (s3 % 4 * 64 + s4) :: bs)
            | _, _ => none
        | none => none
    | _, _ => none
  | _ => none

/-- Base64 encoding of a character list through its character codes. -/
def b64encodeStr (cs : List Char) : String :=
  String.mk (b64encodeBytes (cs.map Char.toNat))

/-- Base64 decoding of a string back to a character list. -/
def b64decodeStr (s : String) : Option (List Char) :=
  match b64decodeBytes s.data with
  | some bs => some (bs.map Char.ofNat)
  | none => none

/-! ## Codec: payment values to wire strings and back -/

/-- Canonical JSON field list of a payment payload; an absent expiry is
omitted from the object, mirroring JSON serialization of an undefined
field. -/
def payloadFields (p : PaymentPayload) : List (String × JField) :=
  [("scheme", .fstr p.scheme), ("network", .fstr p.network),
   ("chainId", .fnum p.chainId), ("recipient", .fstr p.recipient),
   ("amount", .fstr p.amount), ("asset", .fstr p.asset),
   ("nonce", .fnum p.nonce), ("signature", .fstr p.signature),
   ("publicKey", .fstr p.publicKey)] ++
  (match p.expiresAt with
   | some e => [("expiresAt", .fnum e)]
   | none => [])

/-- Canonical JSON field list of a payment requirement; absent optional
fields are omitted. -/
def requirementFields (r : PaymentRequirement) : List (String × JField) :=
  [("scheme", .fstr r.scheme), ("network", .fstr r.network),
   ("chainId", .fnum r.chainId), ("recipient", .fstr r.recipient),
   ("amount", .fstr r.amount), ("asset", .fstr r.asset)] ++
  (match r.description with
   | some d => [("description", .fstr d)]
   | none => []) ++
  (match r.resource with
   | some u => [("resource", .fstr u)]
   | none => [])

/-- Modelled from the spec: encodePayment of the missing codec source,
base64 of the canonical JSON object of a payment payload. -/
def encodePayment (p : PaymentPayload) : String :=
  b64encodeStr (renderObj (payloadFields p))

/-- Modelled from the spec: encoding of a payment requirement to its wire
header string, base64 of its canonical JSON object. -/
def encodeRequirement (r : PaymentRequirement) : String :=
  b64encodeStr (renderObj (requirementFields r))

/-- String valued field lookup in a parsed object. -/
def lookupStr (fs : List (String × JField)) (k : String) : Option String :=
  match fs.lookup k with
  | some (.fstr s) => some s
  | _ => none

/-- Number valued field lookup in a parsed object. -/
def lookupNum (fs : List (String × JField)) (k : String) : Option Nat :=
  match fs.lookup k with
  | some (.fnum n) => some n
  | _ => none

/-- Optional number valued field lookup: absence is success. -/
def lookupOptNum (fs : List (String × JField)) (k : String) : Option (Option Nat) :=
  match fs.lookup k with
  | none => some none
  | some (.fnum n) => some (some n)
  | some _ => none

/-- Optional string valued field lookup: absence is success. -/
def lookupOptStr (fs : List (String × JField)) (k : String) : Option (Option String) :=
  match fs.lookup k with
  | none => some none
  | some (.fstr s) => some (some s)
  | some _ => none

/-- Reconstruction of a payment payload from a parsed field list; the
lookups are by key, so the field order of the object is irrelevant. -/
def fieldsToPayload (fs : List (String × JField)) : Option PaymentPayload :=
  match lookupStr fs "scheme", lookupStr fs "network", lookupNum fs "chainId",
        lookupStr fs "recipient", lookupStr fs "amount", lookupStr fs "asset",
        lookupNum fs "nonce", lookupStr fs "signature", lookupStr fs "publicKey",
        lookupOptNum fs "expiresAt" with
  | some sc, some nw, some ci, some rc, some am, some ast, some no, some sg,
    some pk, some ex =>
    some { scheme := sc, network := nw, chainId := ci, recipient := rc,
           amount := am, asset := ast, nonce := no, signature := sg,
           publicKey := pk, expiresAt := ex }
  | _, _, _, _, _, _, _, _, _, _ => none

/-- Reconstruction of a payment requirement from a parsed field list. -/
def fieldsToRequirement (fs : List (String × JField)) : Option PaymentRequirement :=
  match lookupStr fs "scheme", lookupStr fs "network", lookupNum fs "chainId",
        lookupStr fs "recipient", lookupStr fs "amount", lookupStr fs "asset",
        lookupOptStr fs "description", lookupOptStr fs "resource" with
  | some sc, some nw, some ci, some rc, some am, some ast, some de, some re =>
    some { scheme := sc, network := nw, chainId := ci, recipient := rc,
           amount := am, asset := ast, description := de, resource := re }
  | _, _, _, _, _, _, _, _ => none

/-- Modelled from the spec: decodePaymentPayload of the missing codec
source; fails with a typed failure on invalid base64, invalid JSON or
missing required fields. -/
def decodePaymentPayload (s : String) : Option PaymentPayload :=
  match b64decodeStr s with
  | some cs =>
    match parseObjChars cs with
    | some fs => fieldsToPayload fs
    | none => none
  | none => none

/-- Modelled from the spec: decodePaymentRequirement of the missing codec
source. -/
def decodePaymentRequirement (s : String) : Option PaymentRequirement :=
  match b64decodeStr s with
  | some cs =>
    match parseObjChars cs with
    | some fs => fieldsToRequirement fs
    | none => none
  | none => none

/-- Validity of a payment payload for the codec: every string field is
JSON safe, so the value survives the wire format unescaped. -/
def validPayload (p : PaymentPayload) : Bool :=
  jsonSafeStr p.scheme && jsonSafeStr p.network && jsonSafeStr p.recipient &&
  jsonSafeStr p.amount && jsonSafeStr p.asset && jsonSafeStr p.signature &&
  jsonSafeStr p.publicKey

/-- Validity of a payment requirement for the codec. -/
def validRequirement (r : PaymentRequirement) : Bool :=
  jsonSafeStr r.scheme && jsonSafeStr r.network && jsonSafeStr r.recipient &&
  jsonSafeStr r.amount && jsonSafeStr r.asset &&
  (match r.description with | some d => jsonSafeStr d | none => true) &&
  (match r.resource with | some u => jsonSafeStr u | none => true)

/-! ## Payment verifier

Modelled from the spec: verifyPayment of the missing server source, the
ordered validation of a payload against a requirement. -/

/-- Audit details echoed on a successful verification. -/
structure VerifyDetails where
  amount : String
  recipient : String
  nonce : Nat
deriving DecidableEq

/-- Result of a verification. -/
structure VerificationResult where
  valid : Bool
  reason : Option String
  details : Option VerifyDetails
deriving DecidableEq

/-- Amount check of the verifier: both wire amounts parse as arbitrary
precision integers and the payload amount is at least the requirement
amount. -/
def amountOk (p : PaymentPayload) (r : PaymentRequirement) : Bool :=
  match parseDec p.amount, parseDec r.amount with
  | some a, some b => decide (b ≤ a)
  | _, _ => false

/-- Reason string of a failed amount check. -/
def insufficientReason (p : PaymentPayload) (r : PaymentRequirement) : String :=
  "Insufficient amount: got " ++ p.amount ++ ", need " ++ r.amount

/-- Expiry check of the verifier: a payload with an expiry strictly before
the current time is expired; a payload without an expiry never is. -/
def notExpired (p : PaymentPayload) (now : Nat) : Bool :=
  match p.expiresAt with
  | some e => decide (now ≤ e)
  | none => true

/-- Modelled from the spec: verifyPayment of the missing server source.
The checks run in the fixed order scheme, network, chain id, recipient,
asset, amount, expiry, and the first failing check produces the result. -/
def verifyPayment (p : PaymentPayload) (r : PaymentRequirement) (now : Nat) :
    VerificationResult :=
  if p.scheme == r.scheme then
    if p.network == r.network then
      if p.chainId == r.chainId then
        if p.recipient == r.recipient then
          if p.asset == r.asset then
            if amountOk p r then
              if notExpired p now then
                { valid := true, reason := none,
                  details := some { amount := p.amount, recipient := p.recipient,
                                    nonce := p.nonce } }
              else { valid := false, reason := some "Payment expired", details := none }
            else { valid := false, reason := some (insufficientReason p r), details := none }
          else { valid := false, reason := some "Asset mismatch", details := none }
        else { valid := false, reason := some "Recipient mismatch", details := none }
      else { valid := false, reason := some "Chain ID mismatch", details := none }
    else { valid := false, reason := some "Network mismatch", details := none }
  else { valid := false, reason := some "Scheme mismatch", details := none }

/-- Ordered check list of the verifier, pairing each check with its reason
string; the specification side of the validation order. -/
def verifyChecks (p : PaymentPayload) (r : PaymentRequirement) (now : Nat) :
    List (Bool × String) :=
  [(p.scheme == r.scheme, "Scheme mismatch"),
   (p.network == r.network, "Network mismatch"),
   (p.chainId == r.chainId, "Chain ID mismatch"),
   (p.recipient == r.recipient, "Recipient mismatch"),
   (p.asset == r.asset, "Asset mismatch"),
   (amountOk p r, insufficientReason p r),
   (notExpired p now, "Payment expired")]

/-- Reason of the first failing check of an ordered check list. -/
def firstFailure : List (Bool × String) → Option String
  | [] => none
  | (ok, msg) :: rest => if ok then firstFailure rest else some msg

/-! ## Outbound fetch wrapper

Modelled from the spec: wrapFetch of the missing stacks-fetch source. -/

/-- HTTP request of the wrapper model. -/
structure HttpRequest where
  url : String
  method : String
  headers : List (String × String)
  body : String
deriving DecidableEq

/-- HTTP response of the wrapper model. -/
structure HttpResponse where
  status : Nat
  headers : List (String × String)
  body : String
deriving DecidableEq

/-- Header lookup by exact name. -/
def getHeaderVal (hs : List (String × String)) (k : String) : Option String :=
  hs.lookup k

/-- Modelled from the spec: configuration of the outbound wrapper; the
ceiling is in minor units and the signing credential is opaque. -/
structure X402Config where
  privateKey : String
  networkType : String
  maxAutoPayAmount : Nat
deriving DecidableEq

/-- Modelled from the spec: construction and signing of a payment payload
from a decoded requirement; the signature itself is opaque to the claims
checked here. -/
def signPayloadFor (cfg : X402Config) (r : PaymentRequirement) (nonce : Nat) :
    PaymentPayload :=
  { scheme := r.scheme, network := r.network, chainId := r.chainId,
    recipient := r.recipient, amount := r.amount, asset := r.asset,
    nonce := nonce, signature := "sig:" ++ cfg.privateKey,
    publicKey := "pub:" ++ cfg.privateKey, expiresAt := none }

/-- Modelled from the spec: wrapFetch of the missing stacks-fetch source.
The underlying client is a function from requests to responses; the
result also lists every request issued, so the number of underlying calls
is observable.  A non-402 response, a 402 without a requirement header, an
undecodable header, an unparseable amount, or an amount above the ceiling
all return the first response after exactly one call; otherwise the
request is retried once with the payment header attached. -/
def wrapFetch (fetchFn : HttpRequest → HttpResponse) (cfg : X402Config)
    (req : HttpRequest) : HttpResponse × List HttpRequest :=
  let r1 := fetchFn req
  if r1.status ≠ 402 then (r1, [req])
  else
    match getHeaderVal r1.headers "x-payment-required" with
    | none => (r1, [req])
    | some h =>
      match decodePaymentRequirement h with
      | none => (r1, [req])
      | some reqmt =>
        match parseDec reqmt.amount with
        | none => (r1, [req])
        | some amt =>
          if cfg.maxAutoPayAmount < amt then (r1, [req])
          else
            let payload := signPayloadFor cfg reqmt 1
            let req2 : HttpRequest :=
              { req with headers := req.headers ++ [("x-payment", encodePayment payload)] }
            (fetchFn req2, [req, req2])

/-! ## Payment gate middleware

Modelled from the spec: paymentMiddleware of the missing stacks-express
source. -/

/-- Configuration of one guarded route. -/
structure RouteConfig where
  price : String
  description : String
deriving DecidableEq

/-- Options of the payment middleware. -/
structure MwOptions where
  recipientAddress : String
  networkType : String
  settleImmediately : Bool
deriving DecidableEq

/-- Inbound request seen by the middleware. -/
structure MwRequest where
  method : String
  path : String
  headers : List (String × String)
deriving DecidableEq

/-- JSON body of a middleware response. -/
structure MwBody where
  error : Option String
  requirement : Option PaymentRequirement
  message : Option String
deriving DecidableEq

/-- Outcome of the middleware on one request: pass the request to the
downstream handler, or respond directly with a status, headers and body. -/
inductive MwOutcome where
  | next
  | respond (status : Nat) (headers : List (String × String)) (body : MwBody)
deriving DecidableEq

/-- Requirement constructed by the middleware for a guarded route. -/
def mkRouteRequirement (opts : MwOptions) (rc : RouteConfig) : PaymentRequirement :=
  { scheme := "exact", network := "stacks",
    chainId := if opts.networkType = "mainnet" then 1 else 2147483648,
    recipient := opts.recipientAddress, amount := rc.price, asset := "STX",
    description := some rc.description, resource := none }

/-- Modelled from the spec: paymentMiddleware of the missing
stacks-express source.  Routes are keyed by method and path; a guarded
route without a payment header receives a 402 carrying the encoded
requirement in the X-Payment-Required response header, an undecodable
payment header receives a 400, a failed verification receives a 402 with
the rejection reason, and a successful verification passes through. -/
def paymentMiddleware (routes : List (String × RouteConfig)) (opts : MwOptions)
    (now : Nat) (req : MwRequest) : MwOutcome :=
  match routes.lookup (req.method ++ " " ++ req.path) with
  | none => .next
  | some rc =>
    let reqmt := mkRouteRequirement opts rc
    match getHeaderVal req.headers "x-payment" with
    | none =>
      .respond 402 [("X-Payment-Required", encodeRequirement reqmt)]
        { error := some "Payment Required", requirement := some reqmt,
          message := some rc.description }
    | some h =>
      match decodePaymentPayload h with
      | none =>
        .respond 400 []
          { error := some "Invalid payment header format", requirement := none,
            message := none }
      | some p =>
        let vr := verifyPayment p reqmt now
        if vr.valid then .next
        else
          .respond 402 []
            { error := vr.reason.getD "Payment verification failed",
              requirement := some reqmt, message := none }

/-! ## Concrete fixtures used by the witnesses -/

/-- Registered agent fixture. -/
def agentA1 : Agent :=
  { id := "a1", name := "AgentOne", walletAddress := "SPA1WALLET", bio := "",
    avatar := "", capabilities := [], tasksCompleted := 0, totalEarnedMicro := 0,
    avgRatingTenths := 0, totalReviews := 0, registeredAt := 0, lastActiveAt := 0 }

/-- Second registered agent fixture. -/
def agentA2 : Agent :=
  { agentA1 with id := "a2", name := "AgentTwo", walletAddress := "SPA2WALLET" }

/-- Open task fixture with a bounty of 0.020 STX. -/
def taskOpenT1 : Task :=
  { id := "t1", title := "Scrape", description := "scrape data",
    category := "web-scraping", bounty := "0.020", bountyMicroStx := 20000,
    status := .opened, posterAddress := "SPPOSTER", assignedAgent := none,
    result := none, paymentTxId := none, platformFee := none,
    platformWallet := none, rejectionReason := none, createdAt := 0,
    updatedAt := 0, completedAt := none }

/-- Submitted task fixture with a bounty of 0.020 STX assigned to a1. -/
def taskSub20k : Task :=
  { taskOpenT1 with
    status := .submitted,
    assignedAgent := some "a1",
    result := some "output" }

/-- Submitted task fixture with a bounty of 1.000 STX assigned to a1. -/
def taskSub1M : Task :=
  { taskSub20k with id := "t2", bounty := "1.000", bountyMicroStx := 1000000 }

/-- Bid fixture by a1 on task t1. -/
def bidA1T1 : Bid :=
  { id := "b1", taskId := "t1", agentId := "a1", amount := "0.018",
    message := "pick me", estimatedTime := "1 hour", createdAt := 0 }

/-- State fixture for the race scenario: one open task, two agents. -/
def stRace : EngineState :=
  { tasks := [taskOpenT1], agents := [agentA1, agentA2], bids := [] }

/-- State fixture for the approval scenarios: two submitted tasks, one
assigned agent. -/
def stApprove : EngineState :=
  { tasks := [taskSub20k, taskSub1M], agents := [agentA1], bids := [] }

/-- State fixture for the duplicate bid scenario. -/
def stBid : EngineState :=
  { tasks := [taskOpenT1], agents := [agentA1], bids := [bidA1T1] }

/-- Second bid request fixture by the same agent a1. -/
def sampleBidReq : PlaceBidRequest :=
  { agentId := "a1", amount := "0.019", message := "again", estimatedTime := "2 hours" }

/-- Requirement fixture matching the unit test setup of the verifier. -/
def sampleRequirement : PaymentRequirement :=
  { scheme := "exact", network := "stacks", chainId := 2147483648,
    recipient := "ST1PQHQKV0RJXZFY1DGX8MNSNYVE3VGZJSRTPGZGM", amount := "5000",
    asset := "STX", description := none, resource := none }

/-- Payload fixture satisfying sampleRequirement. -/
def goodPayload : PaymentPayload :=
  { scheme := "exact", network := "stacks", chainId := 2147483648,
    recipient := "ST1PQHQKV0RJXZFY1DGX8MNSNYVE3VGZJSRTPGZGM", amount := "5000",
    asset := "STX", nonce := 1, signature := "test-signature-hex",
    publicKey := "test-public-key-hex", expiresAt := none }

/-- Payload fixture violating both the network check and the recipient
check at once. -/
def badPayload : PaymentPayload :=
  { goodPayload with network := "bitcoin", recipient := "STWRONG" }

/-- Requirement fixture with an amount just below the 53 bit boundary
value. -/
def bigRequirement : PaymentRequirement :=
  { sampleRequirement with amount := "9007199254740992" }

/-- Payload fixture overpaying bigRequirement by one minor unit; the two
amounts differ only beyond 53 bit float precision. -/
def bigPayload : PaymentPayload :=
  { goodPayload with amount := "9007199254740993" }

/-- Requirement fixture demanding one minor unit more than smallPayload
offers. -/
def bigRequirement2 : PaymentRequirement :=
  { sampleRequirement with amount := "9007199254740993" }

/-- Payload fixture underpaying bigRequirement2 by one minor unit. -/
def smallPayload : PaymentPayload :=
  { goodPayload with amount := "9007199254740992" }

/-- Wellformedness of a JSON field value for the wire format: string
values are JSON safe. -/
def wfField : JField → Bool
  | .fstr s => jsonSafeStr s
  | .fnum _ => true

/-- Wellformedness of a JSON object field list: every key and every value
is JSON safe. -/
def wfPairs (fs : List (String × JField)) : Bool :=
  fs.all (fun kv => jsonSafeStr kv.1 && wfField kv.2)

/-- Payload fixture of the codec round trip test. -/
def testPayload : PaymentPayload :=
  { scheme := "exact", network := "stacks", chainId := 2147483648,
    recipient := "ST1PQHQKV0RJXZFY1DGX8MNSNYVE3VGZJSRTPGZGM", amount := "5000",
    asset := "STX", nonce := 42, signature := "abcdef1234567890",
    publicKey := "pubkey0123456789", expiresAt := none }

/-- Requirement fixture of the codec round trip test, carrying a
description. -/
def testRequirement : PaymentRequirement :=
  { scheme := "exact", network := "stacks", chainId := 2147483648,
    recipient := "ST1PQHQKV0RJXZFY1DGX8MNSNYVE3VGZJSRTPGZGM", amount := "5000",
    asset := "STX", description := some "Test payment for API access",
    resource := none }

/-- Requirement fixture demanding 50 STX, far above the auto pay ceiling
fixture. -/
def ceilingRequirement : PaymentRequirement :=
  { scheme := "exact", network := "stacks", chainId := 2147483648,
    recipient := "ST1PQHQKV0RJXZFY1DGX8MNSNYVE3VGZJSRTPGZGM",
    amount := "50000000", asset := "STX", description := none, resource := none }

/-- Wrapper configuration fixture with a ceiling of one STX. -/
def ceilingConfig : X402Config :=
  { privateKey := "aaaa", networkType := "testnet", maxAutoPayAmount := 1000000 }

/-- Response fixture: a 402 carrying the encoded ceiling requirement. -/
def ceilingResponse : HttpResponse :=
  { status := 402,
    headers := [("x-payment-required", encodeRequirement ceilingRequirement)],
    body := "payment required" }

/-- Underlying fetch fixture always answering the 402 above. -/
def ceilingFetch : HttpRequest → HttpResponse := fun _ => ceilingResponse

/-- Underlying fetch fixture always answering 200. -/
def okFetch : HttpRequest → HttpResponse :=
  fun _ => { status := 200, headers := [], body := "ok" }

/-- Request fixture of the wrapper scenarios. -/
def sampleGet : HttpRequest :=
  { url := "http://example.com/expensive", method := "GET", headers := [],
    body := "" }

/-- Route table fixture of the middleware tests. -/
def mwRoutes : List (String × RouteConfig) :=
  [("GET /paid-endpoint", { price := "0.001", description := "Access paid data" }),
   ("POST /submit", { price := "0.01", description := "Submit content" })]

/-- Middleware options fixture. -/
def mwOpts : MwOptions :=
  { recipientAddress := "ST1PQHQKV0RJXZFY1DGX8MNSNYVE3VGZJSRTPGZGM",
    networkType := "testnet", settleImmediately := false }

/-- Guarded request fixture with no payment header. -/
def mwReqNoHeader : MwRequest :=
  { method := "GET", path := "/paid-endpoint", headers := [] }

/-- Guarded request fixture with an undecodable payment header. -/
def mwReqBadHeader : MwRequest :=
  { method := "GET", path := "/paid-endpoint",
    headers := [("x-payment", "not-valid-json-base64")] }

/-- Request fixture for the same path under a method that is not
configured. -/
def mwReqOtherMethod : MwRequest :=
  { method := "POST", path := "/paid-endpoint", headers := [] }

/-! ## Store access lemmas -/

theorem find?_map_ite_id {α : Type} (idf : α → String) (k : String) (f : α → α)
    (hf : ∀ x, idf (f x) = idf x) :
    ∀ l : List α,
      (l.map (fun x => if idf x == k then f x else x)).find? (fun x => idf x == k) =
        (l.find? (fun x => idf x == k)).map f := by
  intro l
  have hpg : ((fun x => idf x == k) ∘ fun x => if idf x == k then f x else x) =
      (fun x => idf x == k) := by
    funext x
    by_cases h : idf x = k
    · simp [h, hf]
    · simp [h]
  rw [List.find?_map, hpg]
  cases hy : l.find? (fun x => idf x == k) with
  | none => rfl
  | some y =>
    have hk0 : (fun x => idf x == k) y = true :=
      List.find?_some (p := fun x => idf x == k) (a := y) hy
    have hk : (idf y == k) = true := hk0
    simp only [Option.map_some']
    rw [if_pos hk]

theorem find?_map_ite_id_ne {α : Type} (idf : α → String) (k k2 : String) (f : α → α)
    (hf : ∀ x, idf (f x) = idf x) (hne : k2 ≠ k) :
    ∀ l : List α,
      (l.map (fun x => if idf x == k then f x else x)).find? (fun x => idf x == k2) =
        l.find? (fun x => idf x == k2) := by
  intro l
  have hpg : ((fun x => idf x == k2) ∘ fun x => if idf x == k then f x else x) =
      (fun x => idf x == k2) := by
    funext x
    by_cases h : idf x = k
    · simp [h, hf]
    · simp [h]
  rw [List.find?_map, hpg]
  cases hy : l.find? (fun x => idf x == k2) with
  | none => rfl
  | some y =>
    have hk0 : (fun x => idf x == k2) y = true :=
      List.find?_some (p := fun x => idf x == k2) (a := y) hy
    have hk2 : (idf y == k2) = true := hk0
    have hk : (idf y == k) = false :=
      beq_eq_false_iff_ne.mpr (fun hh => hne ((beq_iff_eq.mp hk2).symm.trans hh))
    simp only [Option.map_some']
    rw [if_neg (by simp [hk])]

theorem getTask_updateTask (s : EngineState) (k : String) (f : Task → Task)
    (hf : ∀ t, (f t).id = t.id) :
    getTask (updateTask s k f) k = (getTask s k).map f :=
  find?_map_ite_id Task.id k f hf s.tasks

theorem getTask_updateTask_ne (s : EngineState) (k k2 : String) (f : Task → Task)
    (hf : ∀ t, (f t).id = t.id) (hne : k2 ≠ k) :
    getTask (updateTask s k f) k2 = getTask s k2 :=
  find?_map_ite_id_ne Task.id k k2 f hf hne s.tasks

theorem getAgent_updateAgent (s : EngineState) (k : String) (g : Agent → Agent)
    (hg : ∀ a, (g a).id = a.id) :
    getAgent (updateAgent s k g) k = (getAgent s k).map g :=
  find?_map_ite_id Agent.id k g hg s.agents

theorem getTask_updateAgent (s : EngineState) (k : String) (g : Agent → Agent)
    (k2 : String) : getTask (updateAgent s k g) k2 = getTask s k2 := rfl

theorem getAgent_updateTask (s : EngineState) (k : String) (f : Task → Task)
    (k2 : String) : getAgent (updateTask s k f) k2 = getAgent s k2 := rfl

/-! ## Claims about the task lifecycle engine -/

/-- C1: for every submitted task with minor unit bounty m, a successful
approveTask computes the platform fee as the floor of m over 100 and the
agent payout as m minus that fee, in integer arithmetic over minor units,
records the fee on the completed task, and adds the payout to the
totalEarned accumulator of the assigned agent. -/
theorem approveTask_fee_split (s : EngineState) (taskId tx : String) (now : Nat)
    (t : Task) (aid : String) (a : Agent)
    (ht : getTask s taskId = some t) (hst : t.status = .submitted)
    (ha : t.assignedAgent = some aid) (hag : getAgent s aid = some a) :
    (approveTask s taskId tx now true).2 =
      .ok (completedTask tx now (t.bountyMicroStx / 100) t) ∧
    (completedTask tx now (t.bountyMicroStx / 100) t).platformFee =
      some (microToFixed6 (t.bountyMicroStx / 100)) ∧
    getTask (approveTask s taskId tx now true).1 taskId =
      some (completedTask tx now (t.bountyMicroStx / 100) t) ∧
    getAgent (approveTask s taskId tx now true).1 aid =
      some (payoutAgent (t.bountyMicroStx - t.bountyMicroStx / 100) now a) ∧
    (payoutAgent (t.bountyMicroStx - t.bountyMicroStx / 100) now a).totalEarnedMicro =
      a.totalEarnedMicro + (t.bountyMicroStx - t.bountyMicroStx / 100) := by
  have happ : approveTask s taskId tx now true =
      (updateAgent (updateTask s taskId (completedTask tx now (t.bountyMicroStx / 100)))
         aid (payoutAgent (t.bountyMicroStx - t.bountyMicroStx / 100) now),
       .ok (completedTask tx now (t.bountyMicroStx / 100) t)) := by
    unfold approveTask
    rw [ht]
    simp [hst, ha]
  refine ⟨?_, rfl, ?_, ?_, rfl⟩
  · rw [happ]
  · rw [happ]
    show getTask (updateTask s taskId (completedTask tx now (t.bountyMicroStx / 100)))
        taskId = _
    rw [getTask_updateTask s taskId (completedTask tx now (t.bountyMicroStx / 100))
      (fun u => rfl), ht, Option.map_some']
  · rw [happ]
    show getAgent (updateAgent (updateTask s taskId
        (completedTask tx now (t.bountyMicroStx / 100))) aid
        (payoutAgent (t.bountyMicroStx - t.bountyMicroStx / 100) now)) aid = _
    rw [getAgent_updateAgent (updateTask s taskId
        (completedTask tx now (t.bountyMicroStx / 100))) aid
        (payoutAgent (t.bountyMicroStx - t.bountyMicroStx / 100) now)
        (fun u => rfl), getAgent_updateTask, hag, Option.map_some']

/-- C1 witness: on the concrete store stApprove, approving the 0.020 STX
task records a fee of exactly 0.000200 STX and approving the 1.000 STX
task records a fee of exactly 0.010000 STX, and the agent earns the
payout. -/
theorem approveTask_fee_split_witness :
    (getTask stApprove "t1" = some taskSub20k ∧ taskSub20k.status = .submitted ∧
     taskSub20k.assignedAgent = some "a1" ∧ getAgent stApprove "a1" = some agentA1) ∧
    ((approveTask stApprove "t1" "tx20" 5 true).2 =
       .ok (completedTask "tx20" 5 (taskSub20k.bountyMicroStx / 100) taskSub20k) ∧
     (completedTask "tx20" 5 (taskSub20k.bountyMicroStx / 100) taskSub20k).platformFee =
       some (microToFixed6 (taskSub20k.bountyMicroStx / 100)) ∧
     getTask (approveTask stApprove "t1" "tx20" 5 true).1 "t1" =
       some (completedTask "tx20" 5 (taskSub20k.bountyMicroStx / 100) taskSub20k) ∧
     getAgent (approveTask stApprove "t1" "tx20" 5 true).1 "a1" =
       some (payoutAgent (taskSub20k.bountyMicroStx - taskSub20k.bountyMicroStx / 100) 5 agentA1) ∧
     (payoutAgent (taskSub20k.bountyMicroStx - taskSub20k.bountyMicroStx / 100) 5 agentA1).totalEarnedMicro =
       agentA1.totalEarnedMicro + (taskSub20k.bountyMicroStx - taskSub20k.bountyMicroStx / 100)) ∧
    microToFixed6 (taskSub20k.bountyMicroStx / 100) = "0.000200" ∧
    microToFixed6 (taskSub1M.bountyMicroStx / 100) = "0.010000" ∧
    taskSub20k.bountyMicroStx - taskSub20k.bountyMicroStx / 100 = 19800 :=
  ⟨⟨by decide, by decide, by decide, by decide⟩,
   approveTask_fee_split stApprove "t1" "tx20" 5 taskSub20k "a1" agentA1
     (by decide) (by decide) (by decide) (by decide),
   by decide, by decide, by decide⟩

/-- C2: the two writes of approveTask are atomic.  If the agent counter
update fails, the transaction rolls back: the store is unchanged, the
task still reads back in submitted status, and neither write is visible;
if it succeeds, the completed task write and the agent counter write are
both visible. -/
theorem approveTask_atomicity (s : EngineState) (taskId tx : String) (now : Nat)
    (t : Task) (aid : String)
    (ht : getTask s taskId = some t) (hst : t.status = .submitted)
    (ha : t.assignedAgent = some aid) :
    ((approveTask s taskId tx now false).1 = s ∧
     (approveTask s taskId tx now false).2 = .txAborted ∧
     getTask (approveTask s taskId tx now false).1 taskId = some t ∧
     t.status = .submitted) ∧
    (∀ a, getAgent s aid = some a →
      getTask (approveTask s taskId tx now true).1 taskId =
        some (completedTask tx now (t.bountyMicroStx / 100) t) ∧
      getAgent (approveTask s taskId tx now true).1 aid =
        some (payoutAgent (t.bountyMicroStx - t.bountyMicroStx / 100) now a)) := by
  have hfail : approveTask s taskId tx now false = (s, .txAborted) := by
    unfold approveTask
    rw [ht]
    simp [hst, ha]
  refine ⟨⟨by rw [hfail], by rw [hfail], by rw [hfail]; exact ht, hst⟩, ?_⟩
  intro a hag
  have h1 := approveTask_fee_split s taskId tx now t aid a ht hst ha hag
  exact ⟨h1.2.2.1, h1.2.2.2.1⟩

/-- C2 witness: forcing the agent counter update to fail on the concrete
store stApprove leaves the store untouched and the task in submitted
status; letting it succeed commits both writes. -/
theorem approveTask_atomicity_witness :
    (getTask stApprove "t1" = some taskSub20k ∧ taskSub20k.status = .submitted ∧
     taskSub20k.assignedAgent = some "a1") ∧
    ((approveTask stApprove "t1" "tx20" 5 false).1 = stApprove ∧
     (approveTask stApprove "t1" "tx20" 5 false).2 = .txAborted ∧
     getTask (approveTask stApprove "t1" "tx20" 5 false).1 "t1" = some taskSub20k ∧
     taskSub20k.status = .submitted) ∧
    (∀ a, getAgent stApprove "a1" = some a →
      getTask (approveTask stApprove "t1" "tx20" 5 true).1 "t1" =
        some (completedTask "tx20" 5 (taskSub20k.bountyMicroStx / 100) taskSub20k) ∧
      getAgent (approveTask stApprove "t1" "tx20" 5 true).1 "a1" =
        some (payoutAgent (taskSub20k.bountyMicroStx - taskSub20k.bountyMicroStx / 100) 5 a)) :=
  ⟨⟨by decide, by decide, by decide⟩,
   (approveTask_atomicity stApprove "t1" "tx20" 5 taskSub20k "a1"
     (by decide) (by decide) (by decide)).1,
   (approveTask_atomicity stApprove "t1" "tx20" 5 taskSub20k "a1"
     (by decide) (by decide) (by decide)).2⟩

/-- C5 counterexample: the claim states that the durable store enforces a
uniqueness constraint over task id and agent id for bids, but the bids
table of the schema carries no such constraint. -/
theorem bids_store_unique_counterexample :
    ["task_id", "agent_id"] ∉ bidsTable.uniques ∧
    ["task_id", "agent_id"] ∈ reviewsTable.uniques := by
  decide

/-- C5 (amended): a second placeBid by an agent that already bid on the
task fails with the duplicate error and leaves the stored bid count
unchanged; the durable store enforces the uniqueness constraint over task
id and agent id for reviews but not for bids, so for bids the guarantee
rests on the application level check alone. -/
theorem placeBid_unique (s : EngineState) (taskId : String) (req : PlaceBidRequest)
    (newId : String) (now : Nat) (t : Task) (a : Agent)
    (ht : getTask s taskId = some t)
    (hst : t.status = .opened ∨ t.status = .bidding)
    (ha : getAgent s req.agentId = some a)
    (hdup : 0 < (s.bids.filter (fun b => b.taskId == taskId && b.agentId == req.agentId)).length) :
    placeBid s taskId req newId now =
      (s, .error "Agent already placed a bid on this task") ∧
    getBidCount (placeBid s taskId req newId now).1 taskId = getBidCount s taskId ∧
    ["task_id", "agent_id"] ∈ reviewsTable.uniques ∧
    ["task_id", "agent_id"] ∉ bidsTable.uniques := by
  have hpb : placeBid s taskId req newId now =
      (s, .error "Agent already placed a bid on this task") := by
    unfold placeBid
    rw [ht]
    simp [hst, ha, hdup]
  exact ⟨hpb, by rw [hpb], by decide, by decide⟩

/-- C5 witness: on the concrete store stBid, where agent a1 already bid
on open task t1, a second bid by a1 is rejected as a duplicate and the
bid count stays at one. -/
theorem placeBid_unique_witness :
    (getTask stBid "t1" = some taskOpenT1 ∧
     (taskOpenT1.status = .opened ∨ taskOpenT1.status = .bidding) ∧
     getAgent stBid sampleBidReq.agentId = some agentA1 ∧
     0 < (stBid.bids.filter (fun b =>
       b.taskId == "t1" && b.agentId == sampleBidReq.agentId)).length) ∧
    (placeBid stBid "t1" sampleBidReq "b2" 7 =
       (stBid, .error "Agent already placed a bid on this task") ∧
     getBidCount (placeBid stBid "t1" sampleBidReq "b2" 7).1 "t1" =
       getBidCount stBid "t1" ∧
     ["task_id", "agent_id"] ∈ reviewsTable.uniques ∧
     ["task_id", "agent_id"] ∉ bidsTable.uniques) ∧
    getBidCount stBid "t1" = 1 :=
  ⟨⟨by decide, by decide, by decide, by decide⟩,
   placeBid_unique stBid "t1" sampleBidReq "b2" 7 taskOpenT1 agentA1
     (by decide) (by decide) (by decide) (by decide),
   by decide⟩

/-- C9: the status transition of acceptTask is not conditioned on the
stored status at commit time.  In the interleaving where two calls both
read the open task before either write commits, both calls pass their
checks and both writes apply: each caller receives an ok row, no wrong
status error is raised for the loser, and the second write silently
overwrites the assignment of the first. -/
theorem racedAccept_double_assign :
    acceptTaskCheck stRace "t1" "a1" = none ∧
    acceptTaskCheck stRace "t1" "a2" = none ∧
    (racedAccept stRace "t1" "a1" "a2" 1 2).2.1 =
      .ok { taskOpenT1 with status := .assigned, assignedAgent := some "a1", updatedAt := 1 } ∧
    (racedAccept stRace "t1" "a1" "a2" 1 2).2.2 =
      .ok { taskOpenT1 with status := .assigned, assignedAgent := some "a2", updatedAt := 2 } ∧
    getTask (racedAccept stRace "t1" "a1" "a2" 1 2).1 "t1" =
      some { taskOpenT1 with status := .assigned, assignedAgent := some "a2", updatedAt := 2 } := by
  decide

/-- C10: the rejection of a submitted task by its poster changes exactly
the status, the rejection reason, the cleared result and the update
timestamp of that task; the assigned agent, bounty, bounty minor units,
poster address, payment transaction id and creation timestamp are all
unchanged, other tasks are untouched, and the agents and bids of the
store are untouched. -/
theorem rejectResult_frame (s : EngineState) (taskId posterAddress reason : String)
    (now : Nat) (t : Task)
    (ht : getTask s taskId = some t) (hst : t.status = .submitted)
    (hp : t.posterAddress = posterAddress) :
    (rejectResult s taskId posterAddress reason now).2 =
      .ok (rejectedTask reason now t) ∧
    getTask (rejectResult s taskId posterAddress reason now).1 taskId =
      some (rejectedTask reason now t) ∧
    (rejectedTask reason now t).status = .assigned ∧
    (rejectedTask reason now t).rejectionReason = some reason ∧
    (rejectedTask reason now t).result = none ∧
    (rejectedTask reason now t).updatedAt = now ∧
    (rejectedTask reason now t).assignedAgent = t.assignedAgent ∧
    (rejectedTask reason now t).bounty = t.bounty ∧
    (rejectedTask reason now t).bountyMicroStx = t.bountyMicroStx ∧
    (rejectedTask reason now t).posterAddress = t.posterAddress ∧
    (rejectedTask reason now t).paymentTxId = t.paymentTxId ∧
    (rejectedTask reason now t).createdAt = t.createdAt ∧
    (∀ k2, k2 ≠ taskId →
      getTask (rejectResult s taskId posterAddress reason now).1 k2 = getTask s k2) ∧
    (rejectResult s taskId posterAddress reason now).1.agents = s.agents ∧
    (rejectResult s taskId posterAddress reason now).1.bids = s.bids := by
  have hrr : rejectResult s taskId posterAddress reason now =
      (updateTask s taskId (rejectedTask reason now), .ok (rejectedTask reason now t)) := by
    unfold rejectResult
    rw [ht]
    simp [hst, hp]
  refine ⟨by rw [hrr], ?_, rfl, rfl, rfl, rfl, rfl, rfl, rfl, rfl, rfl, rfl, ?_, ?_, ?_⟩
  · rw [hrr]
    show getTask (updateTask s taskId (rejectedTask reason now)) taskId = _
    rw [getTask_updateTask s taskId (rejectedTask reason now) (fun u => rfl), ht,
      Option.map_some']
  · intro k2 hk2
    rw [hrr]
    exact getTask_updateTask_ne s taskId k2 (rejectedTask reason now) (fun u => rfl) hk2
  · rw [hrr]
    rfl
  · rw [hrr]
    rfl

/-- C10 witness: rejecting the submitted 0.020 STX task on the concrete
store stApprove reverts it to assigned with the reason stored, the result
cleared, and the agent assignment and all remaining columns intact. -/
theorem rejectResult_frame_witness :
    (getTask stApprove "t1" = some taskSub20k ∧ taskSub20k.status = .submitted ∧
     taskSub20k.posterAddress = "SPPOSTER") ∧
    ((rejectResult stApprove "t1" "SPPOSTER" "too short" 9).2 =
       .ok (rejectedTask "too short" 9 taskSub20k) ∧
     getTask (rejectResult stApprove "t1" "SPPOSTER" "too short" 9).1 "t1" =
       some (rejectedTask "too short" 9 taskSub20k) ∧
     (rejectedTask "too short" 9 taskSub20k).status = .assigned ∧
     (rejectedTask "too short" 9 taskSub20k).rejectionReason = some "too short" ∧
     (rejectedTask "too short" 9 taskSub20k).result = none ∧
     (rejectedTask "too short" 9 taskSub20k).updatedAt = 9 ∧
     (rejectedTask "too short" 9 taskSub20k).assignedAgent = taskSub20k.assignedAgent ∧
     (rejectedTask "too short" 9 taskSub20k).bounty = taskSub20k.bounty ∧
     (rejectedTask "too short" 9 taskSub20k).bountyMicroStx = taskSub20k.bountyMicroStx ∧
     (rejectedTask "too short" 9 taskSub20k).posterAddress = taskSub20k.posterAddress ∧
     (rejectedTask "too short" 9 taskSub20k).paymentTxId = taskSub20k.paymentTxId ∧
     (rejectedTask "too short" 9 taskSub20k).createdAt = taskSub20k.createdAt ∧
     (∀ k2, k2 ≠ "t1" →
       getTask (rejectResult stApprove "t1" "SPPOSTER" "too short" 9).1 k2 =
         getTask stApprove k2) ∧
     (rejectResult stApprove "t1" "SPPOSTER" "too short" 9).1.agents = stApprove.agents ∧
     (rejectResult stApprove "t1" "SPPOSTER" "too short" 9).1.bids = stApprove.bids) :=
  ⟨⟨by decide, by decide, by decide⟩,
   rejectResult_frame stApprove "t1" "SPPOSTER" "too short" 9 taskSub20k
     (by decide) (by decide) (by decide)⟩

/-! ## Verifier lemmas and claims -/

theorem verifyPayment_eq_firstFailure (p : PaymentPayload) (r : PaymentRequirement)
    (now : Nat) :
    verifyPayment p r now =
      (match firstFailure (verifyChecks p r now) with
       | some m => { valid := false, reason := some m, details := none }
       | none => { valid := true, reason := none,
                   details := some { amount := p.amount, recipient := p.recipient,
                                     nonce := p.nonce } }) := by
  cases h1 : p.scheme == r.scheme <;>
  cases h2 : p.network == r.network <;>
  cases h3 : p.chainId == r.chainId <;>
  cases h4 : p.recipient == r.recipient <;>
  cases h5 : p.asset == r.asset <;>
  cases h6 : amountOk p r <;>
  cases h7 : notExpired p now <;>
  simp [verifyPayment, verifyChecks, firstFailure, h1, h2, h3, h4, h5, h6, h7]

theorem firstFailure_eq_find? (l : List (Bool × String)) :
    firstFailure l = (l.find? (fun c => !c.1)).map Prod.snd := by
  induction l with
  | nil => rfl
  | cons c rest ih =>
    obtain ⟨ok, msg⟩ := c
    cases ok <;> simp [firstFailure, ih]

theorem firstFailure_isSome_of_fail (l : List (Bool × String))
    (h : 0 < (l.filter (fun c => !c.1)).length) : ∃ m, firstFailure l = some m := by
  induction l with
  | nil => simp at h
  | cons c rest ih =>
    obtain ⟨ok, msg⟩ := c
    cases ok with
    | false => exact ⟨msg, rfl⟩
    | true =>
      simp only [List.filter] at h
      exact ih (by simpa using h)

theorem firstFailure_none_of_all (l : List (Bool × String))
    (h : l.all (fun c => c.1) = true) : firstFailure l = none := by
  induction l with
  | nil => rfl
  | cons c rest ih =>
    obtain ⟨ok, msg⟩ := c
    simp only [List.all_cons, Bool.and_eq_true] at h
    simp [firstFailure, h.1, ih h.2]

/-- C3: verifyPayment checks the payload in the fixed order scheme,
network, chain id, recipient, asset, amount, expiry and short circuits at
the first failing check.  Whenever at least two checks fail, the reported
reason is that of the earliest failing check in this order, and on
success the details echo the accepted amount, recipient and nonce. -/
theorem verifyPayment_order (p : PaymentPayload) (r : PaymentRequirement) (now : Nat) :
    (2 ≤ ((verifyChecks p r now).filter (fun c => !c.1)).length →
      (verifyPayment p r now).valid = false ∧
      (verifyPayment p r now).reason = firstFailure (verifyChecks p r now) ∧
      firstFailure (verifyChecks p r now) =
        ((verifyChecks p r now).find? (fun c => !c.1)).map Prod.snd) ∧
    ((verifyChecks p r now).all (fun c => c.1) = true →
      verifyPayment p r now =
        { valid := true, reason := none,
          details := some { amount := p.amount, recipient := p.recipient,
                            nonce := p.nonce } }) := by
  constructor
  · intro hfail
    obtain ⟨m, hm⟩ := firstFailure_isSome_of_fail (verifyChecks p r now)
      (lt_of_lt_of_le (by norm_num) hfail)
    refine ⟨?_, ?_, firstFailure_eq_find? _⟩
    · rw [verifyPayment_eq_firstFailure, hm]
    · rw [verifyPayment_eq_firstFailure, hm]
  · intro hall
    rw [verifyPayment_eq_firstFailure, firstFailure_none_of_all _ hall]

/-- C3 witness: a payload violating both the network check and the
recipient check reports the network mismatch, the earlier of the two in
the fixed order; a fully matching payload verifies with echoed details. -/
theorem verifyPayment_order_witness :
    (2 ≤ ((verifyChecks badPayload sampleRequirement 0).filter (fun c => !c.1)).length ∧
     (verifyChecks goodPayload sampleRequirement 0).all (fun c => c.1) = true) ∧
    ((verifyPayment badPayload sampleRequirement 0).valid = false ∧
     (verifyPayment badPayload sampleRequirement 0).reason =
       firstFailure (verifyChecks badPayload sampleRequirement 0) ∧
     firstFailure (verifyChecks badPayload sampleRequirement 0) =
       ((verifyChecks badPayload sampleRequirement 0).find? (fun c => !c.1)).map Prod.snd) ∧
    firstFailure (verifyChecks badPayload sampleRequirement 0) = some "Network mismatch" ∧
    verifyPayment goodPayload sampleRequirement 0 =
      { valid := true, reason := none,
        details := some { amount := goodPayload.amount,
                          recipient := goodPayload.recipient,
                          nonce := goodPayload.nonce } } :=
  ⟨⟨by decide, by decide⟩,
   (verifyPayment_order badPayload sampleRequirement 0).1 (by decide),
   by decide,
   (verifyPayment_order goodPayload sampleRequirement 0).2 (by decide)⟩

/-- C4: with the identity checks satisfied and the payload unexpired,
verifyPayment compares the two decimal amount strings as arbitrary
precision integers: it accepts exactly when the payload amount is at
least the requirement amount, and rejects a smaller payload amount with
the insufficient amount reason naming both values. -/
theorem verifyPayment_amount (p : PaymentPayload) (r : PaymentRequirement) (now : Nat)
    (h1 : p.scheme = r.scheme) (h2 : p.network = r.network)
    (h3 : p.chainId = r.chainId) (h4 : p.recipient = r.recipient)
    (h5 : p.asset = r.asset) (h6 : notExpired p now = true)
    (hp : isDigitString p.amount = true) (hr : isDigitString r.amount = true) :
    ((verifyPayment p r now).valid = true ↔
      decDigitsVal r.amount.data ≤ decDigitsVal p.amount.data) ∧
    (decDigitsVal p.amount.data < decDigitsVal r.amount.data →
      verifyPayment p r now =
        { valid := false, reason := some (insufficientReason p r), details := none }) := by
  have hak : amountOk p r =
      decide (decDigitsVal r.amount.data ≤ decDigitsVal p.amount.data) := by
    unfold amountOk parseDec
    rw [if_pos hp, if_pos hr]
  by_cases hle : decDigitsVal r.amount.data ≤ decDigitsVal p.amount.data
  · have hok : amountOk p r = true := by rw [hak]; exact decide_eq_true hle
    constructor
    · simp [verifyPayment, h1, h2, h3, h4, h5, h6, hok]
      exact hle
    · intro hlt
      exact absurd hle (Nat.not_le_of_lt hlt)
  · have hok : amountOk p r = false := by
      rw [hak]
      exact decide_eq_false hle
    constructor
    · simp [verifyPayment, h1, h2, h3, h4, h5, h6, hok]
      exact not_le.mp hle
    · intro _
      simp [verifyPayment, h1, h2, h3, h4, h5, h6, hok]

/-- C4 witness: for amounts one minor unit apart just beyond the 53 bit
range, the overpaying payload is accepted and the underpaying payload is
rejected with the insufficient amount reason naming both values. -/
theorem verifyPayment_amount_witness :
    (bigPayload.scheme = bigRequirement.scheme ∧
     notExpired bigPayload 0 = true ∧
     isDigitString bigPayload.amount = true ∧
     isDigitString bigRequirement.amount = true) ∧
    ((verifyPayment bigPayload bigRequirement 0).valid = true ↔
      decDigitsVal bigRequirement.amount.data ≤ decDigitsVal bigPayload.amount.data) ∧
    (verifyPayment bigPayload bigRequirement 0).valid = true ∧
    (decDigitsVal smallPayload.amount.data < decDigitsVal bigRequirement2.amount.data →
      verifyPayment smallPayload bigRequirement2 0 =
        { valid := false, reason := some (insufficientReason smallPayload bigRequirement2),
          details := none }) ∧
    insufficientReason smallPayload bigRequirement2 =
      "Insufficient amount: got 9007199254740992, need 9007199254740993" :=
  ⟨⟨by decide, by decide, by decide, by decide⟩,
   (verifyPayment_amount bigPayload bigRequirement 0 (by decide) (by decide) (by decide)
     (by decide) (by decide) (by decide) (by decide) (by decide)).1,
   by decide,
   (verifyPayment_amount smallPayload bigRequirement2 0 (by decide) (by decide) (by decide)
     (by decide) (by decide) (by decide) (by decide) (by decide)).2,
   by decide⟩

/-! ## Decimal rendering round trip lemmas -/

theorem digitChar_toNat : ∀ d, d < 10 → (digitChar d).toNat = 48 + d := by decide

theorem digitChar_isDigit : ∀ d, d < 10 → isDigitCh (digitChar d) = true := by decide

theorem natDigitsAux_eq (fuel : Nat) : ∀ n, n ≤ fuel → natDigitsAux fuel n = Nat.digits 10 n := by
  induction fuel with
  | zero =>
    intro n hn
    interval_cases n
    simp [natDigitsAux]
  | succ f ih =>
    intro n hn
    cases n with
    | zero => simp [natDigitsAux]
    | succ m =>
      show natDigitsAux (f + 1) (m + 1) = _
      rw [Nat.digits_def' (by norm_num : (1 : Nat) < 10) (Nat.succ_pos m)]
      simp only [natDigitsAux]
      rw [ih ((m + 1) / 10) (by omega)]

theorem natDecDigits_eq (n : Nat) : natDecDigits n = Nat.digits 10 n :=
  natDigitsAux_eq n n le_rfl

theorem mem_natDecDigits_lt (n d : Nat) (h : d ∈ natDecDigits n) : d < 10 := by
  rw [natDecDigits_eq] at h
  exact Nat.digits_lt_base (by norm_num) h

theorem foldl_mul_add_reverse (ds : List Nat) : ∀ a : Nat,
    (ds.reverse).foldl (fun acc d => acc * 10 + d) a =
      a * 10 ^ ds.length + Nat.ofDigits 10 ds := by
  induction ds with
  | nil => intro a; simp
  | cons d tl ih =>
    intro a
    rw [List.reverse_cons, List.foldl_append, ih]
    simp only [List.foldl, Nat.ofDigits_cons, List.length_cons, Nat.cast_id]
    ring

theorem decDigitsVal_natToDec (n : Nat) : decDigitsVal (natToDec n).data = n := by
  by_cases h : n = 0
  · subst h; decide
  · rw [natToDec, if_neg h]
    show decDigitsVal ((natDecDigits n).reverse.map digitChar) = n
    unfold decDigitsVal
    rw [List.foldl_map]
    rw [List.foldl_ext _ (fun acc d => acc * 10 + d) 0 ?hext]
    case hext =>
      intro a d hd
      rw [digitChar_toNat d (mem_natDecDigits_lt n d (List.mem_reverse.mp hd))]
      show a * 10 + (48 + d - 48) = a * 10 + d
      omega
    rw [foldl_mul_add_reverse]
    simp [natDecDigits_eq, Nat.ofDigits_digits]

theorem natToDec_all_digits (n : Nat) : ∀ c ∈ (natToDec n).data, isDigitCh c = true := by
  by_cases h : n = 0
  · subst h; decide
  · rw [natToDec, if_neg h]
    intro c hc
    obtain ⟨d, hd, rfl⟩ := List.mem_map.mp hc
    exact digitChar_isDigit d (mem_natDecDigits_lt n d (List.mem_reverse.mp hd))

theorem natToDec_ne_nil (n : Nat) : (natToDec n).data ≠ [] := by
  by_cases h : n = 0
  · subst h; decide
  · rw [natToDec, if_neg h]
    show (natDecDigits n).reverse.map digitChar ≠ []
    simp only [ne_eq, List.map_eq_nil_iff, List.reverse_eq_nil_iff]
    rw [natDecDigits_eq]
    exact Nat.digits_ne_nil_iff_ne_zero.mpr h

theorem parseDec_natToDec (n : Nat) : parseDec (natToDec n) = some n := by
  have hds : isDigitString (natToDec n) = true := by
    unfold isDigitString
    rw [Bool.and_eq_true]
    refine ⟨?_, ?_⟩
    · simp [List.isEmpty_iff, natToDec_ne_nil n]
    · rw [List.all_eq_true]
      intro c hc
      exact natToDec_all_digits n c hc
  rw [parseDec, if_pos hds, decDigitsVal_natToDec]

/-! ## JSON object layer round trip lemmas -/

theorem string_mk_data (s : String) : String.mk s.data = s := rfl

theorem parseStrChars_append (l : List Char) (tail : List Char) (h : chQuote ∉ l) :
    parseStrChars (l ++ chQuote :: tail) = some (l, tail) := by
  induction l with
  | nil => simp [parseStrChars]
  | cons c cs ih =>
    have hc : ¬(c = chQuote) := fun hh => h (hh ▸ List.mem_cons_self c cs)
    have hrest : chQuote ∉ cs := fun hm => h (List.mem_cons_of_mem c hm)
    simp only [List.cons_append, parseStrChars]
    rw [if_neg hc]
    simp only [List.append_eq]
    rw [ih hrest]

theorem parseNum_append (ds tail : List Char)
    (hne : ds ≠ []) (hd : ∀ c ∈ ds, isDigitCh c = true)
    (ht : ∀ c, tail.head? = some c → isDigitCh c = false) :
    parseNum (ds ++ tail) = some (decDigitsVal ds, tail) := by
  have htake : (ds ++ tail).takeWhile isDigitCh = ds := by
    rw [List.takeWhile_append_of_pos hd]
    cases tail with
    | nil => simp
    | cons c cs =>
      rw [List.takeWhile_cons, ht c rfl]
      simp
  have hdrop : (ds ++ tail).dropWhile isDigitCh = tail := by
    rw [List.dropWhile_append_of_pos hd]
    cases tail with
    | nil => simp
    | cons c cs =>
      rw [List.dropWhile_cons, ht c rfl]
      simp
  simp only [parseNum, htake, hdrop]
  rw [if_neg (by simp [List.isEmpty_iff, hne])]

theorem isDigit_ne_quote (c : Char) (h : isDigitCh c = true) : ¬(c = chQuote) := by
  intro hh
  subst hh
  exact absurd h (by decide)

theorem parseJField_fstr (s : String) (tail : List Char) (hs : jsonSafeStr s = true) :
    parseJField (renderJField (.fstr s) ++ tail) = some (.fstr s, tail) := by
  have hq : chQuote ∉ s.data := by
    intro hm
    have := (List.all_eq_true.mp hs) chQuote hm
    exact absurd this (by decide)
  show parseJField ((chQuote :: (s.data ++ [chQuote])) ++ tail) = _
  simp only [List.cons_append, List.append_assoc, List.singleton_append]
  simp [parseJField, parseStrChars_append s.data tail hq, string_mk_data]

theorem parseJField_fnum (n : Nat) (tail : List Char)
    (ht : ∀ c, tail.head? = some c → isDigitCh c = false) :
    parseJField (renderJField (.fnum n) ++ tail) = some (.fnum n, tail) := by
  obtain ⟨c, cs, hcs⟩ : ∃ c cs, (natToDec n).data = c :: cs := by
    cases hd : (natToDec n).data with
    | nil => exact absurd hd (natToDec_ne_nil n)
    | cons c cs => exact ⟨c, cs, rfl⟩
  have hcd : isDigitCh c = true :=
    natToDec_all_digits n c (by rw [hcs]; exact List.mem_cons_self c cs)
  show parseJField ((natToDec n).data ++ tail) = _
  rw [hcs, List.cons_append]
  simp only [parseJField]
  rw [if_neg (isDigit_ne_quote c hcd), if_pos hcd]
  rw [show c :: (cs ++ tail) = (natToDec n).data ++ tail by rw [hcs]; rfl]
  rw [parseNum_append _ _ (natToDec_ne_nil n) (natToDec_all_digits n) ht]
  rw [decDigitsVal_natToDec]

theorem parsePairsAux_render :
    ∀ (fs : List (String × JField)), wfPairs fs = true → fs ≠ [] →
    ∀ fuel, fs.length ≤ fuel →
      parsePairsAux fuel (renderPairs fs ++ [chRBrace]) = some (fs, [chRBrace]) := by
  intro fs
  induction fs with
  | nil => intro _ hne _ _; exact absurd rfl hne
  | cons kv rest ih =>
    intro hwf hne fuel hfuel
    obtain ⟨k, v⟩ := kv
    cases fuel with
    | zero => simp at hfuel
    | succ f =>
      have hwf1 : jsonSafeStr k = true ∧ wfField v = true := by
        have := (List.all_eq_true.mp hwf) (k, v) (List.mem_cons_self _ _)
        simpa [Bool.and_eq_true] using this
      have hq : chQuote ∉ k.data := by
        intro hm
        have := (List.all_eq_true.mp hwf1.1) chQuote hm
        exact absurd this (by decide)
      have hwfrest : wfPairs rest = true := by
        rw [wfPairs, List.all_eq_true]
        intro x hx
        exact (List.all_eq_true.mp hwf) x (List.mem_cons_of_mem _ hx)
      have hval : ∀ t : List Char, (∀ c, t.head? = some c → isDigitCh c = false) →
          parseJField (renderJField v ++ t) = some (v, t) := by
        intro t htc
        cases v with
        | fstr s => exact parseJField_fstr s t hwf1.2
        | fnum m => exact parseJField_fnum m t htc
      cases rest with
      | nil =>
        have hv1 := hval [chRBrace]
          (by intro c hc; rw [List.head?_cons, Option.some.injEq] at hc; subst hc; decide)
        show parsePairsAux (f + 1) (renderPair (k, v) ++ [chRBrace]) = _
        rw [renderPair]
        simp only [List.cons_append, List.append_assoc]
        simp [parsePairsAux,
          parseStrChars_append k.data (chColon :: (renderJField v ++ [chRBrace])) hq,
          hv1, string_mk_data, (by decide : ¬(chRBrace = chComma))]
      | cons kv2 rs =>
        have hv2 := hval (chComma :: (renderPairs (kv2 :: rs) ++ [chRBrace]))
          (by intro c hc; rw [List.head?_cons, Option.some.injEq] at hc; subst hc; decide)
        have hrec := ih hwfrest (by simp) f (by simpa using hfuel)
        show parsePairsAux (f + 1) (renderPairs ((k, v) :: kv2 :: rs) ++ [chRBrace]) = _
        simp only [renderPairs]
        rw [renderPair]
        simp only [List.cons_append, List.append_assoc]
        simp [parsePairsAux,
          parseStrChars_append k.data
            (chColon :: (renderJField v ++ chComma :: (renderPairs (kv2 :: rs) ++ [chRBrace]))) hq,
          hv2, hrec, string_mk_data]

theorem renderPairs_cons_head (kv : String × JField) (rest : List (String × JField)) :
    ∃ l, renderPairs (kv :: rest) = chQuote :: l := by
  cases rest with
  | nil => exact ⟨_, rfl⟩
  | cons kv2 rs => exact ⟨_, rfl⟩

theorem length_le_renderPairs : ∀ fs : List (String × JField),
    fs.length ≤ (renderPairs fs).length
  | [] => Nat.zero_le _
  | [kv] => Nat.succ_le_succ (Nat.zero_le _)
  | kv :: kv2 :: rs => by
    have ih := length_le_renderPairs (kv2 :: rs)
    show (kv :: kv2 :: rs).length ≤
      (renderPair kv ++ chComma :: renderPairs (kv2 :: rs)).length
    simp only [List.length_cons, List.length_append] at ih ⊢
    omega

theorem parseObjChars_render (fs : List (String × JField)) (hwf : wfPairs fs = true) :
    parseObjChars (renderObj fs) = some fs := by
  cases fs with
  | nil => decide
  | cons kv rest =>
    obtain ⟨l, hl⟩ := renderPairs_cons_head kv rest
    have hshape : renderPairs (kv :: rest) ++ [chRBrace] = chQuote :: (l ++ [chRBrace]) := by
      rw [hl]
      rfl
    have hlen : (kv :: rest).length ≤ (chQuote :: (l ++ [chRBrace])).length := by
      have h1 := length_le_renderPairs (kv :: rest)
      rw [hl] at h1
      simp only [List.length_cons, List.length_append, List.length_nil] at h1 ⊢
      omega
    have hrec := parsePairsAux_render (kv :: rest) hwf (by simp)
      (chQuote :: (l ++ [chRBrace])).length hlen
    rw [hshape] at hrec
    show parseObjChars (chLBrace :: (renderPairs (kv :: rest) ++ [chRBrace])) = _
    rw [hshape]
    simp only [parseObjChars]
    rw [if_pos trivial]
    rw [if_neg (fun hcon => absurd hcon.1 (by decide))]
    rw [hrec]
    simp

/-! ## Base64 round trip lemmas -/

theorem b64dec_b64char : ∀ i, i < 64 → b64decChar (b64char i) = some i := by decide

theorem b64char_ne_eq : ∀ i, i < 64 → ¬(b64char i = chEq) := by decide

theorem b64decodeBytes_encodeBytes : ∀ bs : List Nat, (∀ b ∈ bs, b < 256) →
    b64decodeBytes (b64encodeBytes bs) = some bs
  | [], _ => rfl
  | [a], h => by
    have ha : a < 256 := h a (by simp)
    have d1 := b64dec_b64char (a / 4) (by omega)
    have d2 := b64dec_b64char (a % 4 * 16) (by omega)
    simp [b64encodeBytes, b64decodeBytes, d1, d2]
    omega
  | [a, b], h => by
    have ha : a < 256 := h a (by simp)
    have hb : b < 256 := h b (by simp)
    have d1 := b64dec_b64char (a / 4) (by omega)
    have d2 := b64dec_b64char (a % 4 * 16 + b / 16) (by omega)
    have d3 := b64dec_b64char (b % 16 * 4) (by omega)
    have n3 := b64char_ne_eq (b % 16 * 4) (by omega)
    simp [b64encodeBytes, b64decodeBytes, d1, d2, d3, n3]
    omega
  | a :: b :: c :: rest, h => by
    have ha : a < 256 := h a (by simp)
    have hb : b < 256 := h b (by simp)
    have hc : c < 256 := h c (by simp)
    have hrest := b64decodeBytes_encodeBytes rest
      (fun x hx => h x (by simp [List.mem_cons] at hx ⊢; tauto))
    have d1 := b64dec_b64char (a / 4) (by omega)
    have d2 := b64dec_b64char (a % 4 * 16 + b / 16) (by omega)
    have d3 := b64dec_b64char (b % 16 * 4 + c / 64) (by omega)
    have d4 := b64dec_b64char (c % 64) (by omega)
    have n3 := b64char_ne_eq (b % 16 * 4 + c / 64) (by omega)
    have n4 := b64char_ne_eq (c % 64) (by omega)
    simp [b64encodeBytes, b64decodeBytes, d1, d2, d3, d4, n3, n4, hrest]
    omega

theorem b64decodeStr_encodeStr (cs : List Char) (h : ∀ c ∈ cs, c.toNat < 256) :
    b64decodeStr (b64encodeStr cs) = some cs := by
  unfold b64encodeStr b64decodeStr
  rw [show (String.mk (b64encodeBytes (cs.map Char.toNat))).data =
      b64encodeBytes (cs.map Char.toNat) from rfl]
  rw [b64decodeBytes_encodeBytes (cs.map Char.toNat)
    (by intro x hx; obtain ⟨ch, hch, rfl⟩ := List.mem_map.mp hx; exact h ch hch)]
  have hmap : List.map (Char.ofNat ∘ Char.toNat) cs = cs := by
    clear h
    induction cs with
    | nil => rfl
    | cons x xs ih => simp [Function.comp, Char.ofNat_toNat, ih]
  show some (List.map Char.ofNat (List.map Char.toNat cs)) = some cs
  rw [List.map_map, hmap]

/-! ## Byte bounds of the rendered wire format -/

theorem jsonSafeChar_byte (c : Char) (h : jsonSafeChar c = true) : c.toNat < 256 := by
  simp only [jsonSafeChar, Bool.and_eq_true, decide_eq_true_eq] at h
  omega

theorem digit_byte (c : Char) (h : isDigitCh c = true) : c.toNat < 256 := by
  simp only [isDigitCh, decide_eq_true_eq] at h
  omega

theorem renderJField_bytes (v : JField) (hv : wfField v = true) :
    ∀ c ∈ renderJField v, c.toNat < 256 := by
  cases v with
  | fstr s =>
    intro c hc
    simp only [renderJField] at hc
    rw [List.mem_append, List.mem_cons, List.mem_singleton] at hc
    rcases hc with (rfl | hc) | rfl
    · decide
    · exact jsonSafeChar_byte c ((List.all_eq_true.mp hv) c hc)
    · decide
  | fnum n =>
    intro c hc
    exact digit_byte c (natToDec_all_digits n c hc)

theorem renderPair_bytes (kv : String × JField)
    (hk : jsonSafeStr kv.1 = true) (hv : wfField kv.2 = true) :
    ∀ c ∈ renderPair kv, c.toNat < 256 := by
  intro c hc
  simp only [renderPair] at hc
  rw [List.mem_append, List.mem_cons, List.mem_cons, List.mem_cons] at hc
  rcases hc with (rfl | hc) | rfl | rfl | hc
  · decide
  · exact jsonSafeChar_byte c ((List.all_eq_true.mp hk) c hc)
  · decide
  · decide
  · exact renderJField_bytes kv.2 hv c hc

theorem renderPairs_bytes : ∀ fs : List (String × JField), wfPairs fs = true →
    ∀ c ∈ renderPairs fs, c.toNat < 256
  | [], _ => by intro c hc; simp [renderPairs] at hc
  | [kv], hwf => by
    have h1 : jsonSafeStr kv.1 = true ∧ wfField kv.2 = true := by
      have := (List.all_eq_true.mp hwf) kv (by simp)
      simpa [Bool.and_eq_true] using this
    intro c hc
    exact renderPair_bytes kv h1.1 h1.2 c hc
  | kv :: kv2 :: rs, hwf => by
    have h1 : jsonSafeStr kv.1 = true ∧ wfField kv.2 = true := by
      have := (List.all_eq_true.mp hwf) kv (by simp)
      simpa [Bool.and_eq_true] using this
    have hrest : wfPairs (kv2 :: rs) = true := by
      rw [wfPairs, List.all_eq_true]
      intro x hx
      exact (List.all_eq_true.mp hwf) x (List.mem_cons_of_mem _ hx)
    intro c hc
    have hc2 : c ∈ renderPair kv ++ chComma :: renderPairs (kv2 :: rs) := hc
    rw [List.mem_append, List.mem_cons] at hc2
    rcases hc2 with hc2 | rfl | hc2
    · exact renderPair_bytes kv h1.1 h1.2 c hc2
    · decide
    · exact renderPairs_bytes (kv2 :: rs) hrest c hc2

theorem renderObj_bytes (fs : List (String × JField)) (hwf : wfPairs fs = true) :
    ∀ c ∈ renderObj fs, c.toNat < 256 := by
  intro c hc
  simp only [renderObj] at hc
  rw [List.mem_append, List.mem_cons, List.mem_singleton] at hc
  rcases hc with (rfl | hc) | rfl
  · decide
  · exact renderPairs_bytes fs hwf c hc
  · decide

/-! ## Field lookup lemmas -/

theorem fieldsToPayload_payloadFields (p : PaymentPayload) :
    fieldsToPayload (payloadFields p) = some p := by
  obtain ⟨sc, nw, ci, rc, am, ast, no, sg, pk, ex⟩ := p
  cases ex <;> rfl

theorem fieldsToRequirement_requirementFields (r : PaymentRequirement) :
    fieldsToRequirement (requirementFields r) = some r := by
  obtain ⟨sc, nw, ci, rc, am, ast, de, re⟩ := r
  cases de <;> cases re <;> rfl

theorem lookup_perm {β : Type} (k : String) :
    ∀ {l1 l2 : List (String × β)}, l1.Perm l2 → (l2.map Prod.fst).Nodup →
      List.lookup k l1 = List.lookup k l2 := by
  intro l1 l2 hperm
  induction hperm with
  | nil => intro _; rfl
  | cons x h ih =>
    intro hnd
    simp only [List.map_cons, List.nodup_cons] at hnd
    obtain ⟨x1, x2⟩ := x
    cases hk : (k == x1) <;> simp [List.lookup, hk, ih hnd.2]
  | swap x y l =>
    intro hnd
    obtain ⟨x1, x2⟩ := x
    obtain ⟨y1, y2⟩ := y
    simp only [List.map_cons, List.nodup_cons, List.mem_cons] at hnd
    have hxy : ¬(x1 = y1) := fun hh => hnd.1 (Or.inl hh)
    cases hk1 : (k == x1) <;> cases hk2 : (k == y1) <;>
      simp [List.lookup, hk1, hk2]
    exact absurd ((beq_iff_eq.mp hk1).symm.trans (beq_iff_eq.mp hk2)) hxy
  | trans h1 h2 ih1 ih2 =>
    intro hnd
    rw [ih1 (((h2.map Prod.fst).nodup_iff).mpr hnd), ih2 hnd]

theorem payloadFields_keys_nodup (p : PaymentPayload) :
    ((payloadFields p).map Prod.fst).Nodup := by
  cases hx : p.expiresAt with
  | none =>
    simp only [payloadFields, hx, List.append_nil, List.map_cons, List.map_nil]
    decide
  | some e =>
    simp only [payloadFields, hx, List.map_cons, List.map_nil, List.cons_append,
      List.nil_append, List.map_append]
    decide

theorem requirementFields_keys_nodup (r : PaymentRequirement) :
    ((requirementFields r).map Prod.fst).Nodup := by
  cases hd : r.description <;> cases hu : r.resource <;>
    simp only [requirementFields, hd, hu, List.append_nil, List.map_cons,
      List.map_nil, List.cons_append, List.nil_append, List.map_append] <;>
    decide

theorem fieldsToPayload_congr (fs gs : List (String × JField))
    (h : ∀ k, List.lookup k fs = List.lookup k gs) :
    fieldsToPayload fs = fieldsToPayload gs := by
  unfold fieldsToPayload lookupStr lookupNum lookupOptNum
  rw [h "scheme", h "network", h "chainId", h "recipient", h "amount", h "asset",
    h "nonce", h "signature", h "publicKey", h "expiresAt"]

theorem fieldsToRequirement_congr (fs gs : List (String × JField))
    (h : ∀ k, List.lookup k fs = List.lookup k gs) :
    fieldsToRequirement fs = fieldsToRequirement gs := by
  unfold fieldsToRequirement lookupStr lookupNum lookupOptStr
  rw [h "scheme", h "network", h "chainId", h "recipient", h "amount", h "asset",
    h "description", h "resource"]

/-! ## Wellformedness of the canonical field lists -/

theorem payloadFields_wf (p : PaymentPayload) (hp : validPayload p = true) :
    wfPairs (payloadFields p) = true := by
  simp only [validPayload, Bool.and_eq_true] at hp
  obtain ⟨⟨⟨⟨⟨⟨h1, h2⟩, h3⟩, h4⟩, h5⟩, h6⟩, h7⟩ := hp
  cases hx : p.expiresAt <;>
    simp [wfPairs, payloadFields, wfField, hx, h1, h2, h3, h4, h5, h6, h7,
      (by decide : jsonSafeStr "scheme" = true),
      (by decide : jsonSafeStr "network" = true),
      (by decide : jsonSafeStr "chainId" = true),
      (by decide : jsonSafeStr "recipient" = true),
      (by decide : jsonSafeStr "amount" = true),
      (by decide : jsonSafeStr "asset" = true),
      (by decide : jsonSafeStr "nonce" = true),
      (by decide : jsonSafeStr "signature" = true),
      (by decide : jsonSafeStr "publicKey" = true),
      (by decide : jsonSafeStr "expiresAt" = true)]

theorem requirementFields_wf (r : PaymentRequirement) (hr : validRequirement r = true) :
    wfPairs (requirementFields r) = true := by
  simp only [validRequirement, Bool.and_eq_true] at hr
  obtain ⟨⟨⟨⟨⟨⟨h1, h2⟩, h3⟩, h4⟩, h5⟩, h6⟩, h7⟩ := hr
  cases hd : r.description <;> cases hu : r.resource <;>
    simp_all [wfPairs, requirementFields, wfField,
      (by decide : jsonSafeStr "scheme" = true),
      (by decide : jsonSafeStr "network" = true),
      (by decide : jsonSafeStr "chainId" = true),
      (by decide : jsonSafeStr "recipient" = true),
      (by decide : jsonSafeStr "amount" = true),
      (by decide : jsonSafeStr "asset" = true),
      (by decide : jsonSafeStr "description" = true),
      (by decide : jsonSafeStr "resource" = true)]

/-! ## Codec round trip assembly -/

theorem decodePayload_encodePayment (p : PaymentPayload) (hp : validPayload p = true) :
    decodePaymentPayload (encodePayment p) = some p := by
  unfold decodePaymentPayload encodePayment
  rw [b64decodeStr_encodeStr _ (renderObj_bytes _ (payloadFields_wf p hp))]
  show (match parseObjChars (renderObj (payloadFields p)) with
    | some fs => fieldsToPayload fs
    | none => none) = some p
  rw [parseObjChars_render _ (payloadFields_wf p hp)]
  exact fieldsToPayload_payloadFields p

theorem decodeRequirement_encodeRequirement (r : PaymentRequirement)
    (hr : validRequirement r = true) :
    decodePaymentRequirement (encodeRequirement r) = some r := by
  unfold decodePaymentRequirement encodeRequirement
  rw [b64decodeStr_encodeStr _ (renderObj_bytes _ (requirementFields_wf r hr))]
  show (match parseObjChars (renderObj (requirementFields r)) with
    | some fs => fieldsToRequirement fs
    | none => none) = some r
  rw [parseObjChars_render _ (requirementFields_wf r hr)]
  exact fieldsToRequirement_requirementFields r

/-- C6: the payment codec round trips losslessly.  For every valid payment
payload and every valid payment requirement, decoding the base64 encoding
yields the original value; and reconstruction from a parsed field list is
invariant under any permutation of the fields, so the field order of the
wire object is irrelevant. -/
theorem codec_roundtrip (p : PaymentPayload) (r : PaymentRequirement)
    (hp : validPayload p = true) (hr : validRequirement r = true) :
    decodePaymentPayload (encodePayment p) = some p ∧
    decodePaymentRequirement (encodeRequirement r) = some r ∧
    (∀ fs, fs.Perm (payloadFields p) → fieldsToPayload fs = some p) ∧
    (∀ fs, fs.Perm (requirementFields r) → fieldsToRequirement fs = some r) := by
  refine ⟨decodePayload_encodePayment p hp, decodeRequirement_encodeRequirement r hr,
    ?_, ?_⟩
  · intro fs hperm
    rw [fieldsToPayload_congr fs (payloadFields p)
      (fun k => lookup_perm k hperm (payloadFields_keys_nodup p))]
    exact fieldsToPayload_payloadFields p
  · intro fs hperm
    rw [fieldsToRequirement_congr fs (requirementFields r)
      (fun k => lookup_perm k hperm (requirementFields_keys_nodup r))]
    exact fieldsToRequirement_requirementFields r

/-- C6 witness: the concrete payload and requirement of the round trip
test decode back from their encodings, and reconstruction from the field
list reversed in order yields the same values. -/
theorem codec_roundtrip_witness :
    (validPayload testPayload = true ∧ validRequirement testRequirement = true) ∧
    (decodePaymentPayload (encodePayment testPayload) = some testPayload ∧
     decodePaymentRequirement (encodeRequirement testRequirement) = some testRequirement ∧
     (∀ fs, fs.Perm (payloadFields testPayload) → fieldsToPayload fs = some testPayload) ∧
     (∀ fs, fs.Perm (requirementFields testRequirement) →
       fieldsToRequirement fs = some testRequirement)) :=
  ⟨⟨by decide, by decide⟩,
   codec_roundtrip testPayload testRequirement (by decide) (by decide)⟩

/-! ## Outbound wrapper and middleware claims -/

/-- C7: the wrapped fetch returns any non 402 response unchanged after
exactly one underlying call; and when a 402 carries a decodable
requirement whose minor unit amount exceeds the configured ceiling, it
returns the original 402 unmodified after exactly one underlying call,
issuing no second request. -/
theorem wrapFetch_ceiling (fetchFn : HttpRequest → HttpResponse) (cfg : X402Config)
    (req : HttpRequest) :
    ((fetchFn req).status ≠ 402 →
      wrapFetch fetchFn cfg req = (fetchFn req, [req])) ∧
    (∀ h reqmt amt, (fetchFn req).status = 402 →
      getHeaderVal (fetchFn req).headers "x-payment-required" = some h →
      decodePaymentRequirement h = some reqmt →
      parseDec reqmt.amount = some amt →
      cfg.maxAutoPayAmount < amt →
      wrapFetch fetchFn cfg req = (fetchFn req, [req])) := by
  constructor
  · intro hs
    unfold wrapFetch
    simp [hs]
  · intro h reqmt amt hs hh hd hpa hceil
    unfold wrapFetch
    simp [hs, hh, hd, hpa, hceil]

/-- C7 witness: a 200 response passes through with one call, and a 402
demanding 50 STX against a one STX ceiling is returned unmodified with no
second call. -/
theorem wrapFetch_ceiling_witness :
    ((okFetch sampleGet).status ≠ 402 ∧
     (ceilingFetch sampleGet).status = 402 ∧
     getHeaderVal (ceilingFetch sampleGet).headers "x-payment-required" =
       some (encodeRequirement ceilingRequirement) ∧
     decodePaymentRequirement (encodeRequirement ceilingRequirement) =
       some ceilingRequirement ∧
     parseDec ceilingRequirement.amount = some 50000000 ∧
     ceilingConfig.maxAutoPayAmount < 50000000) ∧
    wrapFetch okFetch ceilingConfig sampleGet = (okFetch sampleGet, [sampleGet]) ∧
    wrapFetch ceilingFetch ceilingConfig sampleGet =
      (ceilingFetch sampleGet, [sampleGet]) :=
  ⟨⟨by decide, rfl, rfl,
    decodeRequirement_encodeRequirement ceilingRequirement (by decide),
    by decide, by decide⟩,
   (wrapFetch_ceiling okFetch ceilingConfig sampleGet).1 (by decide),
   (wrapFetch_ceiling ceilingFetch ceilingConfig sampleGet).2
     (encodeRequirement ceilingRequirement) ceilingRequirement 50000000
     rfl rfl (decodeRequirement_encodeRequirement ceilingRequirement (by decide))
     (by decide) (by decide)⟩

/-- C8: on a guarded route with no payment header the middleware responds
402 with the encoded requirement in the X-Payment-Required response
header and does not invoke the downstream handler; with a payment header
that fails to decode it responds 400 with the invalid payment header
format error; and a route configured for one method does not guard the
same path under a different method, which passes through. -/
theorem paymentMiddleware_guard (routes : List (String × RouteConfig))
    (opts : MwOptions) (now : Nat) (req : MwRequest) (rc : RouteConfig)
    (hroute : routes.lookup (req.method ++ " " ++ req.path) = some rc) :
    (getHeaderVal req.headers "x-payment" = none →
      paymentMiddleware routes opts now req =
        .respond 402
          [("X-Payment-Required", encodeRequirement (mkRouteRequirement opts rc))]
          { error := some "Payment Required",
            requirement := some (mkRouteRequirement opts rc),
            message := some rc.description } ∧
      paymentMiddleware routes opts now req ≠ .next) ∧
    (∀ h, getHeaderVal req.headers "x-payment" = some h →
      decodePaymentPayload h = none →
      paymentMiddleware routes opts now req =
        .respond 400 []
          { error := some "Invalid payment header format", requirement := none,
            message := none } ∧
      paymentMiddleware routes opts now req ≠ .next) ∧
    (∀ req2 : MwRequest, routes.lookup (req2.method ++ " " ++ req2.path) = none →
      paymentMiddleware routes opts now req2 = .next) := by
  refine ⟨?_, ?_, ?_⟩
  · intro hnone
    have heq : paymentMiddleware routes opts now req =
        .respond 402
          [("X-Payment-Required", encodeRequirement (mkRouteRequirement opts rc))]
          { error := some "Payment Required",
            requirement := some (mkRouteRequirement opts rc),
            message := some rc.description } := by
      unfold paymentMiddleware
      rw [hroute]
      simp [hnone]
    exact ⟨heq, by rw [heq]; exact fun hcon => MwOutcome.noConfusion hcon⟩
  · intro h hsome hdec
    have heq : paymentMiddleware routes opts now req =
        .respond 400 []
          { error := some "Invalid payment header format", requirement := none,
            message := none } := by
      unfold paymentMiddleware
      rw [hroute]
      simp [hsome, hdec]
    exact ⟨heq, by rw [heq]; exact fun hcon => MwOutcome.noConfusion hcon⟩
  · intro req2 hn
    unfold paymentMiddleware
    rw [hn]

/-- C8 witness: on the concrete route table, a GET of the guarded path
without a payment header receives the 402 with the encoded requirement
header, the undecodable payment header receives the 400 error, and a POST
of the same path passes through to the handler. -/
theorem paymentMiddleware_guard_witness :
    (mwRoutes.lookup (mwReqNoHeader.method ++ " " ++ mwReqNoHeader.path) =
       some { price := "0.001", description := "Access paid data" } ∧
     getHeaderVal mwReqNoHeader.headers "x-payment" = none ∧
     getHeaderVal mwReqBadHeader.headers "x-payment" = some "not-valid-json-base64" ∧
     decodePaymentPayload "not-valid-json-base64" = none ∧
     mwRoutes.lookup (mwReqOtherMethod.method ++ " " ++ mwReqOtherMethod.path) = none) ∧
    (paymentMiddleware mwRoutes mwOpts 0 mwReqNoHeader =
       .respond 402
         [("X-Payment-Required", encodeRequirement (mkRouteRequirement mwOpts
            { price := "0.001", description := "Access paid data" }))]
         { error := some "Payment Required",
           requirement := some (mkRouteRequirement mwOpts
             { price := "0.001", description := "Access paid data" }),
           message := some "Access paid data" } ∧
     paymentMiddleware mwRoutes mwOpts 0 mwReqNoHeader ≠ .next) ∧
    (paymentMiddleware mwRoutes mwOpts 0 mwReqBadHeader =
       .respond 400 []
         { error := some "Invalid payment header format", requirement := none,
           message := none } ∧
     paymentMiddleware mwRoutes mwOpts 0 mwReqBadHeader ≠ .next) ∧
    paymentMiddleware mwRoutes mwOpts 0 mwReqOtherMethod = .next :=
  ⟨⟨by decide, rfl, rfl, by decide, by decide⟩,
   by
     have h1 := (paymentMiddleware_guard mwRoutes mwOpts 0 mwReqNoHeader
       { price := "0.001", description := "Access paid data" } (by decide)).1 rfl
     simpa using h1,
   by
     have h2 := (paymentMiddleware_guard mwRoutes mwOpts 0 mwReqBadHeader
       { price := "0.001", description := "Access paid data" } (by decide)).2.1
       "not-valid-json-base64" rfl (by decide)
     simpa using h2,
   (paymentMiddleware_guard mwRoutes mwOpts 0 mwReqNoHeader
     { price := "0.001", description := "Access paid data" } (by decide)).2.2
     mwReqOtherMethod (by decide)⟩

end StacksTasker
